import Mathlib

/-!
Verification of the Order-to-Cash process-discovery interview engine.

This file is a shallow embedding, in Lean 4, of the Python sources
`attribute_schema.py`, `order_mgmt.py`, `llm_utils.py`, `gap_analysis.py`
and `sap_standard.py`.  Pure Python functions become Lean functions; the
mutable per-session `state` dict becomes an explicit `OMState` record; the
external completion service (the LLM) is an oracle whose per-turn outputs
are passed in as data; the append-only record file of `save_record` is
modelled by a `saved` flag on the turn result.

Modelling conventions, used throughout:
* A Python dict used as a string-keyed map becomes a Lean function
  `String → Option String` (the collected-data map is only ever read by
  key, never iterated).  Values stored are always non-null (the merge in
  `process_input` skips `None` values and the force-skip writes a string
  sentinel), so Python `k in d` coincides with `(d k).isSome` and
  `k not in d or d[k] is None` coincides with `(d k).isNone`.
* Python string helpers (`split()`, `strip()`, `lower()`, substring `in`)
  are re-implemented on character lists so that all definitions reduce in
  the kernel.
* `float` arithmetic appears only in two places (`assess_conversation_style`
  averages and the gap score `int(len/total*100)`); both are exact on the
  values that occur and are modelled by exact integer arithmetic
  (cross-multiplication, and truncating natural division).
-/

namespace OrderMgmt

/-- Python `s.split()`: split on runs of whitespace, dropping empty pieces. -/
def splitWsAux : List Char → List Char → List (List Char)
  | [], acc => [acc.reverse]
  | c :: cs, acc =>
    if c.isWhitespace then acc.reverse :: splitWsAux cs []
    else splitWsAux cs (c :: acc)

/-- Python `s.split()` (whitespace split with empty pieces removed). -/
def pySplit (s : String) : List String :=
  ((splitWsAux s.toList []).map String.mk).filter (fun w => w ≠ "")

/-- Python `len(s.split())`: the word count used by the clarification gate. -/
def pyWordCount (s : String) : Nat := (pySplit s).length

/-- Python `s.lower()`. -/
def lowerStr (s : String) : String := String.mk (s.toList.map Char.toLower)

/-- Python `s.strip()`. -/
def trimStr (s : String) : String :=
  String.mk (((s.toList.dropWhile Char.isWhitespace).reverse.dropWhile
    Char.isWhitespace).reverse)

/-- Python `needle in hay` on strings (substring containment). -/
def strInAux (n : List Char) : List Char → Bool
  | [] => n.isPrefixOf []
  | c :: cs => n.isPrefixOf (c :: cs) || strInAux n cs

/-- Python `needle in hay` on strings (substring containment). -/
def strIn (needle hay : String) : Bool := strInAux needle.toList hay.toList

/-- Python `xs[-n:]`: the last `n` elements of a list. -/
def lastN (n : Nat) (l : List α) : List α := l.drop (l.length - n)

/-!
## `attribute_schema.py`

One entry of the `REQUIRED_ATTRIBUTES` dict.  Python's `class` key is
spelled `cls` (`class` is a Lean keyword).  The dict itself becomes a list
in its (insertion-ordered) iteration order; entries are looked up by
`name`.  `optional` defaults to `False` exactly as the Python
`attr_info.get("optional", False)` does.
-/
structure AttrSpec where
  name : String
  description : String
  process_question : String
  examples : List String
  cls : String
  subclass : String
  order : Nat
  optional : Bool := false
deriving DecidableEq

/-- `SUBCLASS_FLOW_ORDER` from `attribute_schema.py`. -/
def SUBCLASS_FLOW_ORDER : List (String × String) :=
  [("Order Demand & Validation", "Order Intake"),
   ("Order Demand & Validation", "Commercial Validation"),
   ("Order Demand & Validation", "Credit Governance"),
   ("Fulfillment & Distribution", "Inventory & Production"),
   ("Fulfillment & Distribution", "Warehouse Operations"),
   ("Fulfillment & Distribution", "Transportation Management"),
   ("Revenue Realization & Invoicing", "Billing Execution"),
   ("Revenue Realization & Invoicing", "Revenue Accounting"),
   ("Financial Settlements & Recovery", "Cash Application"),
   ("Financial Settlements & Recovery", "Dispute & Deduction Management"),
   ("Financial Settlements & Recovery", "Collections & Dunning"),
   ("Master Data & Lifecycle Support", "Customer Master & Onboarding"),
   ("Master Data & Lifecycle Support", "Reverse Logistics"),
   ("Master Data & Lifecycle Support", "Reporting & Audit Controls")]

/-- `REQUIRED_ATTRIBUTES` from `attribute_schema.py`, in dict order. -/
def REQUIRED_ATTRIBUTES : List AttrSpec :=
  [{ name := "source_channel",
     description := "What channels do orders come through",
     process_question := "How do orders come into your organization?",
     examples := ["EDI 850 from retailers", "B2B Portal",
                  "Manual Email/PDF entry by sales team"],
     cls := "Order Demand & Validation", subclass := "Order Intake",
     order := 1 },
   { name := "intake_timestamp",
     description := "How order receipt time is tracked",
     process_question := "How do you track when orders are received?",
     examples := ["ERP timestamp on entry", "Email receipt time", "Manual logging"],
     cls := "Order Demand & Validation", subclass := "Order Intake",
     order := 2, optional := true },
   { name := "order_completeness_score",
     description := "How order data completeness is measured",
     process_question := "How do you ensure orders have all necessary data? Is there a checklist?",
     examples := ["Required field checklist in ERP", "Variable adherence",
                  "No formal process"],
     cls := "Order Demand & Validation", subclass := "Order Intake",
     order := 3 },
   { name := "sku_validity",
     description := "How SKU validity is checked",
     process_question := "How do you validate that the SKU/product exists and is valid?",
     examples := ["ERP auto-validates", "Manual lookup", "No validation"],
     cls := "Order Demand & Validation", subclass := "Commercial Validation",
     order := 4, optional := true },
   { name := "quantity_availability",
     description := "How inventory availability is checked",
     process_question := "How do you check if the quantity is available?",
     examples := ["Real-time ATP check", "Warehouse confirms",
                  "Separate inventory system"],
     cls := "Order Demand & Validation", subclass := "Commercial Validation",
     order := 5, optional := true },
   { name := "pricing_logic",
     description := "How pricing is determined and validated",
     process_question := "How is pricing determined - contractual, promotional, or list price?",
     examples := ["Contractual pricing in master", "Manual promo code entry",
                  "Price lists"],
     cls := "Order Demand & Validation", subclass := "Commercial Validation",
     order := 6 },
   { name := "fob_terms",
     description := "How FOB/shipping terms are captured",
     process_question := "How are FOB terms and shipping instructions captured?",
     examples := ["Customer master default", "Order-specific entry", "Often missed"],
     cls := "Order Demand & Validation", subclass := "Commercial Validation",
     order := 7, optional := true },
   { name := "credit_limit",
     description := "How credit limits are managed",
     process_question := "What credit limits exist and how are they managed?",
     examples := ["$50,000 threshold for auto-approval", "Customer-specific limits",
                  "No limits"],
     cls := "Order Demand & Validation", subclass := "Credit Governance",
     order := 8 },
   { name := "risk_scoring",
     description := "How credit risk is assessed",
     process_question := "How do you assess credit risk? Any external ratings used?",
     examples := ["D&B Rating checked manually", "Internal scoring",
                  "No formal scoring"],
     cls := "Order Demand & Validation", subclass := "Credit Governance",
     order := 9 },
   { name := "approval_workflow",
     description := "How credit approval workflow operates",
     process_question := "Walk me through the credit approval process. Auto-approval vs manual?",
     examples := ["Auto-approve under threshold", "Manual analyst queue",
                  "Manager approval required"],
     cls := "Order Demand & Validation", subclass := "Credit Governance",
     order := 10 },
   { name := "order_status",
     description := "What order statuses exist after validation",
     process_question := "What happens after credit review - what are the possible outcomes?",
     examples := ["Released, Blocked, Conditional", "Approved with conditions",
                  "Reject or accept only"],
     cls := "Order Demand & Validation", subclass := "Credit Governance",
     order := 11 },
   { name := "stock_category",
     description := "How stock types are managed (MTS vs MTO)",
     process_question := "Is this make-to-stock or make-to-order? How does that work?",
     examples := ["MTS for standard items", "MTO goes to production queue", "Mixed"],
     cls := "Fulfillment & Distribution", subclass := "Inventory & Production",
     order := 12 },
   { name := "warehouse_assignment",
     description := "How warehouse/DC is assigned",
     process_question := "How is the fulfilling warehouse determined?",
     examples := ["Customer region-based", "Inventory availability",
                  "Single warehouse"],
     cls := "Fulfillment & Distribution", subclass := "Inventory & Production",
     order := 13 },
   { name := "production_queue_status",
     description := "How production scheduling works for MTO",
     process_question := "For made-to-order items, how does production scheduling work?",
     examples := ["Goes to production queue", "Scheduler reviews daily",
                  "Not applicable - all MTS"],
     cls := "Fulfillment & Distribution", subclass := "Inventory & Production",
     order := 14 },
   { name := "picking_document_type",
     description := "How pick lists are generated and used",
     process_question := "How does the warehouse know what to pick? Paper lists or RF scanners?",
     examples := ["Paper pick lists", "RF Scanner Task", "WMS-directed picking"],
     cls := "Fulfillment & Distribution", subclass := "Warehouse Operations",
     order := 15 },
   { name := "packing_status",
     description := "How packing process works",
     process_question := "How does packing work? Pack slips, verification?",
     examples := ["Pack slip printed automatically", "Scan to verify",
                  "Manual paper process"],
     cls := "Fulfillment & Distribution", subclass := "Warehouse Operations",
     order := 16, optional := true },
   { name := "system_reliability_metric",
     description := "Reliability of warehouse systems",
     process_question := "How reliable are the warehouse systems? Any issues?",
     examples := ["Scanner uptime 95%", "Old system crashes frequently", "Reliable"],
     cls := "Fulfillment & Distribution", subclass := "Warehouse Operations",
     order := 17, optional := true },
   { name := "carrier_selection",
     description := "How carriers are selected",
     process_question := "How is the carrier selected? LTL, small parcel, etc.?",
     examples := ["FedEx/UPS for small parcel", "LTL for larger", "Rate shopping"],
     cls := "Fulfillment & Distribution", subclass := "Transportation Management",
     order := 18 },
   { name := "tracking_id",
     description := "How tracking numbers are managed",
     process_question := "How are tracking numbers generated and communicated?",
     examples := ["Carrier portal generates", "Manually typed into ERP",
                  "API integration"],
     cls := "Fulfillment & Distribution", subclass := "Transportation Management",
     order := 19 },
   { name := "shipping_mode",
     description := "Shipping modes available",
     process_question := "What shipping modes do you offer?",
     examples := ["Ground, Express, 2-day", "Customer-specified", "Standard only"],
     cls := "Fulfillment & Distribution", subclass := "Transportation Management",
     order := 20, optional := true },
   { name := "data_integrity_type",
     description := "How shipping data flows between systems",
     process_question := "How does shipping data flow - manual re-key or API integration?",
     examples := ["Manual re-key to carrier portals", "API integration", "EDI"],
     cls := "Fulfillment & Distribution", subclass := "Transportation Management",
     order := 21 },
   { name := "generation_trigger",
     description := "What triggers invoice generation",
     process_question := "When does invoicing happen? What triggers it?",
     examples := ["Post-Goods Issue", "When marked shipped", "Manual trigger"],
     cls := "Revenue Realization & Invoicing", subclass := "Billing Execution",
     order := 22 },
   { name := "invoice_format",
     description := "Invoice format and delivery method",
     process_question := "What format are invoices - EDI 810, PDF, email?",
     examples := ["EDI 810 for large customers", "PDF emailed", "Paper mailed"],
     cls := "Revenue Realization & Invoicing", subclass := "Billing Execution",
     order := 23 },
   { name := "landed_cost_calculation",
     description := "How freight/landed costs are calculated",
     process_question := "How are freight and landed costs calculated and added to invoices?",
     examples := ["Automated via TM", "Manual freight log spreadsheet",
                  "Not included"],
     cls := "Revenue Realization & Invoicing", subclass := "Billing Execution",
     order := 24 },
   { name := "revenue_recognition_event",
     description := "When revenue is recognized",
     process_question := "When is revenue recognized - on shipment, delivery, or invoice?",
     examples := ["On shipment", "On delivery", "On invoice"],
     cls := "Revenue Realization & Invoicing", subclass := "Revenue Accounting",
     order := 25 },
   { name := "tax_jurisdiction_vat_code",
     description := "How tax is determined",
     process_question := "How is tax/VAT determined for orders?",
     examples := ["Based on ship-to address", "Tax engine integration", "Manual"],
     cls := "Revenue Realization & Invoicing", subclass := "Revenue Accounting",
     order := 26 },
   { name := "gl_account_mapping",
     description := "How GL accounts are assigned",
     process_question := "How are GL accounts mapped for revenue?",
     examples := ["Product category-based", "Standard mapping", "Manual assignment"],
     cls := "Revenue Realization & Invoicing", subclass := "Revenue Accounting",
     order := 27 },
   { name := "remittance_method",
     description := "How customers pay",
     process_question := "How do customers pay? What are the remittance methods?",
     examples := ["60% lockbox/check", "30% ACH", "10% credit card"],
     cls := "Financial Settlements & Recovery", subclass := "Cash Application",
     order := 28 },
   { name := "auto_match_rate",
     description := "How payments are matched to invoices",
     process_question := "How are payments matched to invoices? Automated or manual?",
     examples := ["70% auto-matched by invoice number", "AI/ML matching",
                  "All manual"],
     cls := "Financial Settlements & Recovery", subclass := "Cash Application",
     order := 29 },
   { name := "unapplied_cash_balance",
     description := "How unapplied payments are handled",
     process_question := "How do you handle payments that can\x27t be matched? Unapplied cash?",
     examples := ["Research queue", "2-3 hours daily manual work",
                  "Minimal unapplied"],
     cls := "Financial Settlements & Recovery", subclass := "Cash Application",
     order := 30 },
   { name := "dispute_reason_code",
     description := "Common dispute/deduction reasons",
     process_question := "What are the common reasons for disputes or deductions?",
     examples := ["Pricing disputes", "Damaged goods", "Short-ship",
                  "Promo deductions"],
     cls := "Financial Settlements & Recovery",
     subclass := "Dispute & Deduction Management",
     order := 31, optional := true },
   { name := "case_owner",
     description := "Who handles disputes",
     process_question := "Who owns the dispute resolution process?",
     examples := ["Sales rep contacts customer", "Collections specialist",
                  "Finance team"],
     cls := "Financial Settlements & Recovery",
     subclass := "Dispute & Deduction Management",
     order := 32, optional := true },
   { name := "tracking_repository",
     description := "Where disputes are tracked",
     process_question := "How are disputes tracked? ERP, Excel, email?",
     examples := ["ERP case management", "Excel tracker", "Mix of emails"],
     cls := "Financial Settlements & Recovery",
     subclass := "Dispute & Deduction Management",
     order := 33, optional := true },
   { name := "ar_aging_bucket",
     description := "How AR aging is managed",
     process_question := "How do you manage AR aging? What buckets do you use?",
     examples := ["Current, 30, 60, 90+ days", "Weekly aging report",
                  "Real-time dashboard"],
     cls := "Financial Settlements & Recovery", subclass := "Collections & Dunning",
     order := 34 },
   { name := "dunning_level",
     description := "How dunning/collection process works",
     process_question := "What\x27s your dunning process for overdue accounts?",
     examples := ["Automated dunning letters", "Collector call scripts",
                  "Manual outreach"],
     cls := "Financial Settlements & Recovery", subclass := "Collections & Dunning",
     order := 35 },
   { name := "bad_debt_provision_status",
     description := "How bad debt is managed",
     process_question := "How is bad debt provisioned and written off?",
     examples := ["Quarterly review", "Trigger at 120 days", "Case-by-case"],
     cls := "Financial Settlements & Recovery", subclass := "Collections & Dunning",
     order := 36 },
   { name := "legal_entity_name",
     description := "How customer master is structured",
     process_question := "How is customer master data structured - by legal entity?",
     examples := ["Legal entity with ship-to hierarchy", "Single account",
                  "Complex hierarchy"],
     cls := "Master Data & Lifecycle Support",
     subclass := "Customer Master & Onboarding",
     order := 37 },
   { name := "tax_id",
     description := "How tax IDs are managed",
     process_question := "How are customer tax IDs captured and validated?",
     examples := ["Required at setup", "W-9 process", "Not validated"],
     cls := "Master Data & Lifecycle Support",
     subclass := "Customer Master & Onboarding",
     order := 38 },
   { name := "payment_terms",
     description := "How payment terms are set",
     process_question := "How are payment terms established for customers?",
     examples := ["Standard Net 30", "Negotiated by sales", "Credit-based"],
     cls := "Master Data & Lifecycle Support",
     subclass := "Customer Master & Onboarding",
     order := 39 },
   { name := "credit_threshold",
     description := "How credit limits are established",
     process_question := "How are credit limits established for new customers?",
     examples := ["Credit application process", "D&B-based", "Sales discretion"],
     cls := "Master Data & Lifecycle Support",
     subclass := "Customer Master & Onboarding",
     order := 40 },
   { name := "setup_workflow_status",
     description := "Customer onboarding workflow",
     process_question := "What\x27s the customer onboarding/setup workflow?",
     examples := ["Formal workflow with approvals", "Sales enters directly",
                  "Paper forms"],
     cls := "Master Data & Lifecycle Support",
     subclass := "Customer Master & Onboarding",
     order := 41 },
   { name := "return_authorization_number",
     description := "How RMAs are handled",
     process_question := "How are returns authorized? RMA process?",
     examples := ["Formal RMA required", "Sales approves", "No formal process"],
     cls := "Master Data & Lifecycle Support", subclass := "Reverse Logistics",
     order := 42, optional := true },
   { name := "inspection_result",
     description := "How returned items are inspected",
     process_question := "How are returned items inspected and dispositioned?",
     examples := ["Warehouse inspects", "Automatic restock", "Destroy on receipt"],
     cls := "Master Data & Lifecycle Support", subclass := "Reverse Logistics",
     order := 43, optional := true },
   { name := "restocking_fee_logic",
     description := "Restocking fee policies",
     process_question := "Are there restocking fees? How are they applied?",
     examples := ["15% restocking fee", "No fees", "Customer-specific"],
     cls := "Master Data & Lifecycle Support", subclass := "Reverse Logistics",
     order := 44, optional := true },
   { name := "credit_memo_status",
     description := "How credit memos are issued",
     process_question := "How are credit memos issued for returns?",
     examples := ["Auto on inspection", "Manual approval", "AR issues"],
     cls := "Master Data & Lifecycle Support", subclass := "Reverse Logistics",
     order := 45, optional := true },
   { name := "kpis",
     description := "Key metrics tracked",
     process_question := "What KPIs do you track for O2C? DSO, cycle time?",
     examples := ["DSO, Order Cycle Time, Invoice Accuracy",
                  "Cash Application Accuracy"],
     cls := "Master Data & Lifecycle Support",
     subclass := "Reporting & Audit Controls",
     order := 46 },
   { name := "sod_flags",
     description := "Segregation of duties controls",
     process_question := "How do you manage segregation of duties?",
     examples := ["ERP roles enforced", "Manual review", "Audit flags"],
     cls := "Master Data & Lifecycle Support",
     subclass := "Reporting & Audit Controls",
     order := 47 },
   { name := "sub_ledger_reconciliation_status",
     description := "How sub-ledger reconciliation works",
     process_question := "How do you reconcile sub-ledger to GL?",
     examples := ["Daily automated", "Monthly manual",
                  "Separate sources compiled"],
     cls := "Master Data & Lifecycle Support",
     subclass := "Reporting & Audit Controls",
     order := 48 }]

/-- Dict lookup `REQUIRED_ATTRIBUTES.get(attr_name)` / `get_attribute_info`. -/
def get_attribute_info (attr_name : String) : Option AttrSpec :=
  REQUIRED_ATTRIBUTES.find? (fun a => a.name = attr_name)

/-- The collected-data map (see the modelling conventions above). -/
def CollectedData : Type := String → Option String

/-- The empty collected-data map (a fresh session). -/
def emptyData : CollectedData := fun _ => none

/-- Python dict write `d[k] = v`. -/
def setKey (d : CollectedData) (k v : String) : CollectedData :=
  fun k' => if k' = k then some v else d k'

/-- Python `attr_name not in collected_data or collected_data[attr_name] is None`
(values stored are never Python `None`, see the conventions above). -/
def isMissingIn (d : CollectedData) (attr_name : String) : Bool :=
  (d attr_name).isNone

/-- Stable insertion of a `(name, order)` pair into an order-sorted list;
together with `sortByOrder` this models the stable Python
`missing.sort(key=lambda x: x[1])`. -/
def insertByOrder (x : String × Nat) : List (String × Nat) → List (String × Nat)
  | [] => [x]
  | y :: ys => if x.2 ≤ y.2 then x :: y :: ys else y :: insertByOrder x ys

/-- Stable sort by the numeric `order` component (Python `list.sort(key=...)`). -/
def sortByOrder : List (String × Nat) → List (String × Nat)
  | [] => []
  | x :: xs => insertByOrder x (sortByOrder xs)

/-- `get_missing_attributes` from `attribute_schema.py`: non-optional
attributes not yet captured, sorted by flow `order`. -/
def get_missing_attributes (collected_data : CollectedData) : List String :=
  let missing := (REQUIRED_ATTRIBUTES.filter
    (fun a => !a.optional && isMissingIn collected_data a.name)).map
      (fun a => (a.name, a.order))
  (sortByOrder missing).map (fun x => x.1)

/-- One entry of the list returned by `get_missing_by_subclass`
(a `{"class": …, "subclass": …, "attributes": …}` dict). -/
structure FocusArea where
  cls : String
  subclass : String
  attributes : List String
deriving DecidableEq

/-- Append `item` to the group of `key`, creating the group at the end if
absent: models `missing[key].append(item)` on a Python dict of lists. -/
def upsertGroup (groups : List ((String × String) × List (String × Nat)))
    (key : String × String) (item : String × Nat) :
    List ((String × String) × List (String × Nat)) :=
  match groups with
  | [] => [(key, [item])]
  | (k, items) :: rest =>
    if k = key then (k, items ++ [item]) :: rest
    else (k, items) :: upsertGroup rest key item

/-- Dict lookup on the grouped representation. -/
def lookupGroup (groups : List ((String × String) × α)) (key : String × String) :
    Option α :=
  match groups with
  | [] => none
  | (k, v) :: rest => if k = key then some v else lookupGroup rest key

/-- `get_missing_by_subclass` from `attribute_schema.py`: missing non-optional
attributes grouped by `(class, subclass)`, each group sorted by `order`, the
groups emitted in `SUBCLASS_FLOW_ORDER`. -/
def get_missing_by_subclass (collected_data : CollectedData) : List FocusArea :=
  let groups := REQUIRED_ATTRIBUTES.foldl
    (fun gs a =>
      if a.optional then gs
      else if isMissingIn collected_data a.name then
        upsertGroup gs (a.cls, a.subclass) (a.name, a.order)
      else gs) []
  let sortedGroups := groups.map
    (fun g => (g.1, (sortByOrder g.2).map (fun x => x.1)))
  SUBCLASS_FLOW_ORDER.filterMap
    (fun cs =>
      match lookupGroup sortedGroups cs with
      | some attrs => some { cls := cs.1, subclass := cs.2, attributes := attrs }
      | none => none)

/-- `is_complete` from `attribute_schema.py`. -/
def is_complete (collected_data : CollectedData) : Bool :=
  (get_missing_attributes collected_data).length = 0

/-- `get_current_focus_area` from `attribute_schema.py`. -/
def get_current_focus_area (collected_data : CollectedData) : Option FocusArea :=
  (get_missing_by_subclass collected_data).head?

/-- Spec §4.4: "totalMandatoryApplicable(schema)".  The schema in
`attribute_schema.py` has no preconditions, so every non-optional
attribute is applicable. -/
def totalMandatoryApplicable : Nat :=
  (REQUIRED_ATTRIBUTES.filter (fun a => !a.optional)).length

/-!
## `sap_standard.py`: the `SAP_BEST_PRACTICES` reference table
-/

/-- One entry of the `SAP_BEST_PRACTICES` dict. -/
structure BestPractice where
  key : String
  standard : String
  risk_if_missing : String
deriving DecidableEq

/-- `SAP_BEST_PRACTICES` from `sap_standard.py`, in dict order. -/
def SAP_BEST_PRACTICES : List BestPractice :=
  [{ key := "order_origin_channels",
     standard := "Multi-channel: EDI for large accounts, B2B portal for mid-market, Manual entry as exception",
     risk_if_missing := "Delayed order processing, manual data entry errors" },
   { key := "manual_intake_method",
     standard := "Digitized intake via scanning/OCR, auto-create from email attachments",
     risk_if_missing := "Manual transcription errors, slow processing" },
   { key := "order_receiver",
     standard := "Dedicated Order Desk team with SLA-based queues",
     risk_if_missing := "Orders lost in shared inboxes, unclear ownership" },
   { key := "captured_data_fields",
     standard := "Customer ID, Material, Quantity, Price, Delivery Date, Ship-to, Payment Terms, PO Number",
     risk_if_missing := "Incomplete orders requiring follow-up" },
   { key := "primary_order_system",
     standard := "Integrated ERP (SAP S/4HANA) with real-time validation",
     risk_if_missing := "Data silos, manual reconciliation needed" },
   { key := "manual_data_verification",
     standard := "Required field validation in ERP before save",
     risk_if_missing := "Incomplete orders progressing to fulfillment" },
   { key := "automated_data_capture",
     standard := "100% validation - all required fields enforced before submission",
     risk_if_missing := "Downstream errors and exceptions" },
   { key := "required_verification_fields",
     standard := "Customer, Material, Qty, Price, Delivery Date, Ship-to, Credit Status",
     risk_if_missing := "Invalid orders reaching fulfillment" },
   { key := "verification_success_rate",
     standard := ">95% first-pass success rate",
     risk_if_missing := "High rework and exception handling costs" },
   { key := "verification_owner",
     standard := "System auto-validates, exceptions to Order Desk",
     risk_if_missing := "Undefined accountability, delays" },
   { key := "credit_approval_type",
     standard := "Automated credit scoring with rule-based limits",
     risk_if_missing := "Inconsistent credit decisions" },
   { key := "auto_approval_limit",
     standard := "Customer-specific based on credit score and history",
     risk_if_missing := "One-size-fits-all limits may be too conservative or risky" },
   { key := "manual_credit_approver",
     standard := "Credit Analyst with defined authority matrix",
     risk_if_missing := "Approval bottlenecks, unclear escalation" },
   { key := "credit_decision_factors",
     standard := "AR balance, DSO, Payment history, Credit score, Open orders value",
     risk_if_missing := "Incomplete risk assessment" },
   { key := "credit_decision_to_sales",
     standard := "Real-time dashboard notification + email",
     risk_if_missing := "Sales unaware of order status" },
   { key := "credit_decision_to_customer",
     standard := "Automated notification via preferred channel",
     risk_if_missing := "Poor customer experience, no visibility" }]

/-!
## `gap_analysis.py`

`analyze_gaps` takes the collected-data snapshot as a Python dict; since
this component also inspects emptiness (`if not collected_data`) the dict
is embedded as an association list (unique keys, first-match lookup).
The two branches of `analyze_gaps` return dicts of different shapes:
`missing` holds bare key strings in the empty branch but records in the
main branch (`MissingEntry` below), and `captured_count`/`total_required`
exist only in the main branch (modelled as `Option Nat`, `none` = the key
is absent from the returned dict).
-/

/-- Python dict lookup on the snapshot passed to `analyze_gaps`. -/
def dictLookup (collected : List (String × String)) (k : String) : Option String :=
  (collected.find? (fun kv => kv.1 = k)).map (fun kv => kv.2)

/-- A `gap_info` record (`{"attribute", "current", "standard", "risk"}` plus
the optional `"issue"` set by whichever heuristic fired last). -/
structure GapInfo where
  attr : String
  current : String
  standard : String
  risk : String
  issue : Option String
deriving DecidableEq

/-- A strengths entry (`{"attribute", "current", "aligned": True}`). -/
structure StrengthInfo where
  attr : String
  current : String
  aligned : Bool
deriving DecidableEq

/-- A `missing` entry: a bare key string (empty-data branch of
`analyze_gaps`) or the full record (main branch). -/
inductive MissingEntry where
  | bare (attr : String)
  | record (attr standard risk issue : String)
deriving DecidableEq

/-- The dict returned by `analyze_gaps`. -/
structure GapReport where
  gaps : List GapInfo
  strengths : List StrengthInfo
  missing : List MissingEntry
  score : Nat
  captured_count : Option Nat
  total_required : Option Nat
deriving DecidableEq

/-- Python `int(''.join(filter(str.isdigit, s)))` on a digit list. -/
def natOfDigits (digits : List Char) : Nat :=
  digits.foldl (fun n c => 10 * n + (c.toNat - 48)) 0

/-- The gap-detection heuristics of `analyze_gaps` (lines 51-80 of
`gap_analysis.py`) for one reference key: returns `(is_gap, issue)`.
Each heuristic that fires sets `is_gap` and overwrites `issue`; one that
does not fire leaves both unchanged. -/
def classifyAttr (attr_key current_value : String) (bp : BestPractice) :
    Bool × Option String :=
  let std := lowerStr bp.standard
  let current := lowerStr current_value
  let r : Bool × Option String := (false, none)
  -- Check for manual/paper processes
  let r :=
    if (["manual", "paper", "email", "spreadsheet", "excel"].any
          (fun word => strIn word current)) &&
       (strIn "automated" std || strIn "system" std || strIn "real-time" std)
    then (true, some "Manual process vs automated standard") else r
  -- Check for low success rates (int() of no digits raises, caught by `except`)
  let r :=
    if attr_key = "verification_success_rate" then
      let digits := (current.toList.take 3).filter Char.isDigit
      if digits.isEmpty then r
      else
        let rate := natOfDigits digits
        if rate < 90 then
          (true, some ("Success rate " ++ toString rate ++ "% below 95% target"))
        else r
    else r
  -- Check for missing integration
  let r :=
    if ["separate", "different system", "re-key", "manual entry"].any
         (fun word => strIn word current)
    then (true, some "System fragmentation vs integrated approach") else r
  -- Check credit governance
  let r :=
    if (attr_key = "credit_decision_to_sales" ||
        attr_key = "credit_decision_to_customer") &&
       (["phone", "calls", "email"].any (fun word => strIn word current)) &&
       (strIn "automated" std || strIn "dashboard" std)
    then (true, some "Manual notification vs automated alerts") else r
  r

/-- The loop body of `analyze_gaps` (lines 28-89 of `gap_analysis.py`):
one reference key is appended to exactly one of the three result lists. -/
def gapStep (collected_data : List (String × String))
    (acc : List GapInfo × List StrengthInfo × List MissingEntry)
    (bp : BestPractice) : List GapInfo × List StrengthInfo × List MissingEntry :=
  let gaps := acc.1
  let strengths := acc.2.1
  let missing := acc.2.2
  match dictLookup collected_data bp.key with
  | none =>
    (gaps, strengths,
     missing ++ [MissingEntry.record bp.key bp.standard bp.risk_if_missing
       "Not yet captured"])
  | some current_value =>
    let c := classifyAttr bp.key current_value bp
    if c.1 then
      (gaps ++ [{ attr := bp.key, current := current_value,
                  standard := bp.standard, risk := bp.risk_if_missing,
                  issue := c.2 }], strengths, missing)
    else
      (gaps, strengths ++ [{ attr := bp.key, current := current_value,
                             aligned := true }], missing)

/-- `analyze_gaps` from `gap_analysis.py`.  The score
`int((len(strengths) / total_required * 100))` is exact float arithmetic
truncated toward zero (here `total_required = 16`, a power of two, so the
float division is exact), i.e. truncating natural division. -/
def analyze_gaps (collected_data : List (String × String)) : GapReport :=
  if collected_data.isEmpty then
    { gaps := [], strengths := [], score := 0,
      missing := SAP_BEST_PRACTICES.map (fun bp => MissingEntry.bare bp.key),
      captured_count := none, total_required := none }
  else
    let acc := SAP_BEST_PRACTICES.foldl (gapStep collected_data) ([], [], [])
    let total_required := SAP_BEST_PRACTICES.length
    let score := if total_required > 0 then
      acc.2.1.length * 100 / total_required else 0
    { gaps := acc.1, strengths := acc.2.1, missing := acc.2.2, score := score,
      captured_count := some (acc.2.1.length + acc.1.length),
      total_required := some total_required }

/-!
## `llm_utils.py`

The completion service is an oracle: each call's raw reply is data.
`extract_all_mentioned_attributes` keeps its real post-processing of the
raw reply (lines 254-272): `json.loads` is the abstract parameter
`jsonLoads` (returning `none` where the Python call raises), a parsed
object is a key → (value-or-null) list, and every failure path returns
the empty mapping.
-/

/-- `response[response.index("\x7b") : response.rindex("\x7d") + 1]`. -/
def braceSpan (cs : List Char) : List Char :=
  ((cs.dropWhile (fun c => c ≠ '\x7b')).reverse.dropWhile
    (fun c => c ≠ '\x7d')).reverse

/-- `extract_all_mentioned_attributes` from `llm_utils.py`, given the raw
oracle reply (`none` = `call_qwen` returned `None` after catching an API
error).  Prompt construction feeds only the oracle and is absorbed into
the reply value. -/
def extract_all_mentioned_attributes
    (jsonLoads : String → Option (List (String × Option String)))
    (response : Option String) : List (String × Option String) :=
  match response with
  | none => []
  | some resp =>
    if resp = "" then []                -- Python `if not response`
    else
      let r := trimStr resp
      if r.toList.contains '\x7b' then
        if r.toList.contains '\x7d' then
          match jsonLoads (String.mk (braceSpan r.toList)) with
          | some data => data
          | none => []                  -- json.JSONDecodeError caught
        else []                         -- rindex raises ValueError, caught
      else []                           -- no JSON object in the reply

/-- The failure cases of the extraction path: the oracle call errored
(`call_qwen` returned `None`), returned an empty reply, or returned a
reply from which no JSON object can be recovered (no opening brace, no
closing brace — `rindex` raises — or `json.loads` fails on the brace
span). -/
def extractionFailed (jsonLoads : String → Option (List (String × Option String))) :
    Option String → Prop
  | none => True
  | some resp =>
    resp = "" ∨
    (trimStr resp).toList.contains '\x7b' = false ∨
    (trimStr resp).toList.contains '\x7d' = false ∨
    jsonLoads (String.mk (braceSpan (trimStr resp).toList)) = none

/-- `assess_conversation_style` from `llm_utils.py`.  The float average
`sum/len > 50` is compared by exact cross-multiplication. -/
def assess_conversation_style (recent_responses : List String) : String :=
  if recent_responses.length = 0 then "neutral"
  else
    let total := (recent_responses.map pyWordCount).sum
    let n := recent_responses.length
    if total > 50 * n then "narrative"
    else if total < 10 * n then "brief"
    else "neutral"

/-- `generate_next_question` from `llm_utils.py`, with the raw reply of its
`call_qwen` call passed in as `oracleReply`. -/
def generate_next_question (oracleReply : Option String)
    (missing_attributes : List String) (focus_area : Option FocusArea) : String :=
  let attributes_to_ask : List String :=
    match focus_area with
    | some fa => fa.attributes.take 3
    | none => missing_attributes.take 3
  let current_subclass : String :=
    match focus_area with
    | some fa => fa.subclass
    | none =>
      match attributes_to_ask with
      | a :: _ =>
        match get_attribute_info a with
        | some info => info.subclass
        | none => ""
      | [] => ""
  let process_questions := attributes_to_ask.filterMap
    (fun attr_name =>
      match get_attribute_info attr_name with
      | some info =>
        if info.process_question ≠ "" then some info.process_question else none
      | none => none)
  -- fallback: first process_question, or the generic prompts
  let fallback : String :=
    match attributes_to_ask with
    | first_attr :: _ =>
      match get_attribute_info first_attr with
      | some info => info.process_question
      | none => "Could you tell me about your " ++ current_subclass ++ " process?"
    | [] => "Could you tell me more about that process?"
  if process_questions.isEmpty then fallback
  else
    match oracleReply with
    | some question =>
      if question.length > 10 then trimStr question else fallback
    | none => fallback

/-!
## `order_mgmt.py`: the conversation state machine
-/

/-- The per-session `state` dict of `OrderManager`.  The keys
`last_subclass`, `subclass_attempts` and `clarification_count` are absent
from `get_initial_state` and only read through `.get(…, default)`; they
are modelled with the default as initial value (`none` / `0`). -/
structure OMState where
  active : Bool
  collected_data : CollectedData
  conversation_history : List String
  user_responses : List String
  user_style : String
  question_count : Nat
  current_focus : Option FocusArea
  last_subclass : Option String
  subclass_attempts : Nat
  clarification_count : Nat

/-- `OrderManager.get_initial_state`. -/
def get_initial_state : OMState :=
  { active := true, collected_data := emptyData, conversation_history := [],
    user_responses := [], user_style := "neutral", question_count := 0,
    current_focus := none, last_subclass := none, subclass_attempts := 0,
    clarification_count := 0 }

/-- The outputs of the two oracle calls a single `process_input` turn can
make: the (already post-processed) extraction result, and the raw reply
used by `generate_next_question`. -/
structure TurnOracle where
  extracted : List (String × Option String)
  questionReply : Option String

/-- Which return site of `process_input` produced the response. -/
inductive TurnOutcome where
  | completed
  | clarification
  | asked
deriving DecidableEq

/-- The value of one `process_input` call: the returned response plus the
updated state, with `saved` marking a `save_record` call (the append-only
sink) and `skipped` marking that the force-skip branch ran. -/
structure TurnResult where
  response : String
  state : OMState
  saved : Bool
  skipped : Bool
  outcome : TurnOutcome

/-- The merge loop of `process_input` (lines 50-54 of `order_mgmt.py`):
every non-null extracted pair is written into `collected_data`. -/
def mergeExtracted (d : CollectedData) (extracted : List (String × Option String)) :
    CollectedData :=
  extracted.foldl
    (fun d kv => match kv.2 with
      | some v => setKey d kv.1 v
      | none => d) d

/-- `captured_this_turn` of `process_input`: some extracted pair is non-null. -/
def capturedThisTurn (extracted : List (String × Option String)) : Bool :=
  extracted.any (fun kv => kv.2.isSome)

/-- The fixed completion acknowledgement (lines 72-76 of `order_mgmt.py`). -/
def completionResponse : String :=
  "This has been incredibly insightful. " ++
  "I have captured all the key process details. " ++
  "Your order-to-cash process information has been recorded."

/-- The clarification prompt built at lines 101-112 of `order_mgmt.py`:
re-states the pending question of the current focus with its examples. -/
def clarificationText (focus_area : Option FocusArea) : String :=
  match focus_area with
  | some fa =>
    match fa.attributes with
    | attr_name :: _ =>
      let info := get_attribute_info attr_name
      let pq := match info with
        | some i => i.process_question
        | none => "how you handle this"
      let examples := match info with
        | some i => i.examples
        | none => []
      "Could you elaborate a bit more? For example, I\x27m trying to understand: "
        ++ pq ++ " Some examples might be: "
        ++ (if examples.isEmpty then "various approaches"
            else String.intercalate ", " (examples.take 2)) ++ "."
    | [] => "Could you provide more details about how that works in your process?"
  | none => "Could you provide more details about how that works in your process?"

/-- The force-skip write loop (lines 124-127 of `order_mgmt.py`): the
"[Not discussed]" sentinel is written to each attribute of the abandoned
topic that is not already present. -/
def skipFill (d : CollectedData) (attrs : List String) : CollectedData :=
  attrs.foldl
    (fun d attr => if (d attr).isNone then setKey d attr "[Not discussed]" else d) d

/-- Lines 84-94 of `order_mgmt.py`: the per-topic attempt counter and
`last_subclass` update, returning the new `(subclass_attempts,
last_subclass)`.  Python `if current_subclass:` is "present and
non-empty". -/
def updateAttempts (captured_this_turn : Bool) (current_subclass : Option String)
    (last_subclass0 : Option String) (attempts0 : Nat) : Nat × Option String :=
  let subclassTruthy : Bool :=
    match current_subclass with
    | some c => c ≠ ""
    | none => false
  if subclassTruthy then
    let al0 : Nat × Option String :=
      if last_subclass0 ≠ current_subclass then (0, current_subclass)
      else (attempts0, last_subclass0)
    (if !captured_this_turn then al0.1 + 1 else 0, al0.2)
  else (attempts0, last_subclass0)

/-- Lines 121-133 of `order_mgmt.py`: when stuck (3+ attempts) with a
focus area, force-skip its remaining attributes and recompute focus and
missing; otherwise keep everything.  Returns
`(collected_data, focus_area, subclass_attempts, missing, skipped?)`. -/
def skipStep (subclass_attempts : Nat) (collected_data : CollectedData)
    (focus_area : Option FocusArea) (missing : List String) :
    CollectedData × Option FocusArea × Nat × List String × Bool :=
  if 3 ≤ subclass_attempts ∧ focus_area.isSome then
    let skipped_attrs :=
      match focus_area with
      | some fa => fa.attributes
      | none => []
    let cd := skipFill collected_data skipped_attrs
    (cd, get_current_focus_area cd, 0, get_missing_attributes cd, true)
  else (collected_data, focus_area, subclass_attempts, missing, false)

/-- `OrderManager.process_input` from `order_mgmt.py`. -/
def process_input (oracle : TurnOracle) (user_input : String) (state : OMState) :
    TurnResult :=
  let user_responses := state.user_responses ++ [user_input]
  let conversation_history := state.conversation_history ++ ["User: " ++ user_input]
  -- the rolling 3-exchange window (lines 36-37) feeds only the oracle prompts
  let extracted := oracle.extracted
  let captured_this_turn := capturedThisTurn extracted
  let collected_data := mergeExtracted state.collected_data extracted
  let user_style :=
    if user_responses.length ≥ 2 then
      assess_conversation_style (lastN 3 user_responses)
    else state.user_style
  let missing := get_missing_attributes collected_data
  if missing.length = 0 then
    { response := completionResponse,
      state := { state with
        active := false, collected_data := collected_data,
        conversation_history :=
          conversation_history ++ ["Bot: " ++ completionResponse],
        user_responses := user_responses, user_style := user_style },
      saved := true, skipped := false, outcome := .completed }
  else
    let focus_area := get_current_focus_area collected_data
    let al := updateAttempts captured_this_turn (focus_area.map (fun fa => fa.subclass))
      state.last_subclass state.subclass_attempts
    let subclass_attempts := al.1
    let last_subclass := al.2
    if (!captured_this_turn && pyWordCount user_input < 15) &&
       (state.clarification_count < 2 && subclass_attempts < 3) then
      let clarification := clarificationText focus_area
      { response := clarification,
        state := { state with
          collected_data := collected_data,
          conversation_history :=
            conversation_history ++ ["Bot: " ++ clarification],
          user_responses := user_responses, user_style := user_style,
          current_focus := focus_area, last_subclass := last_subclass,
          subclass_attempts := subclass_attempts,
          clarification_count := state.clarification_count + 1 },
        saved := false, skipped := false, outcome := .clarification }
    else
      let clarification_count :=
        if captured_this_turn then 0 else state.clarification_count
      let sk := skipStep subclass_attempts collected_data focus_area missing
      let next_question :=
        generate_next_question oracle.questionReply sk.2.2.2.1 sk.2.1
      { response := next_question,
        state := { state with
          collected_data := sk.1,
          conversation_history :=
            conversation_history ++ ["Bot: " ++ next_question],
          user_responses := user_responses, user_style := user_style,
          question_count := state.question_count + 1,
          current_focus := sk.2.1, last_subclass := last_subclass,
          subclass_attempts := sk.2.2.1,
          clarification_count := clarification_count },
        saved := false, skipped := sk.2.2.2.2, outcome := .asked }

/-- Drive turns the way `Orchestrator.handle_message` does: a turn is
processed only while the session is active (on `active=False` the
orchestrator leaves ORDER_MGMT mode), returning the final state. -/
def runActive : List (String × TurnOracle) → OMState → OMState
  | [], s => s
  | (u, o) :: rest, s =>
    if s.active then runActive rest (process_input o u s).state else s

/-- Like `runActive` but collecting every turn's `TurnResult`. -/
def runResults : List (String × TurnOracle) → OMState → List TurnResult
  | [], _ => []
  | (u, o) :: rest, s =>
    if s.active then
      let r := process_input o u s
      r :: runResults rest r.state
    else []

/-!
## The Inference Engine

Modelled from the spec: the repository file implementing the Inference
Engine (`runInferences`, spec §4.2) is not among the provided sources —
only the spec describes it, and downstream code (`gap_analysis.py`,
`sap_gap_diagram.py`) reads inferred keys such as `uses_erp`,
`has_auto_approval`, `has_manual_credit`.  The definitions below follow
the spec's words.
-/

/-- Modelled from the spec: one Inferred QuestionSpec (§3) — its `key`,
its `inferenceSource` key, and its pure `inferenceRule`. -/
structure InferenceSpec where
  key : String
  source : String
  rule : String → Option String

/-- Modelled from the spec (§4.2): the action of `runInferences` for one
Inferred QuestionSpec — if the `inferenceSource` key is present and the
spec's own `key` is absent, compute `inferenceRule(sourceValue)` and, if
non-null, set it. -/
def inferStep (d : CollectedData) (sp : InferenceSpec) : CollectedData :=
  match d sp.source with
  | none => d
  | some sv =>
    match d sp.key with
    | some _ => d
    | none =>
      match sp.rule sv with
      | some v => setKey d sp.key v
      | none => d

/-- Modelled from the spec (§4.2): `runInferences(collectedData) →
collectedData'`, applying `inferStep` for every Inferred QuestionSpec. -/
def runInferences (specs : List InferenceSpec) (d : CollectedData) : CollectedData :=
  specs.foldl inferStep d

/-- Modelled from the spec: two example Inferred QuestionSpecs in the
style of §4.2 (case-insensitive substring matching into small closed
label sets; the inferred keys are the ones downstream code reads). -/
def demoInferences : List InferenceSpec :=
  [{ key := "uses_erp", source := "primary_order_system",
     rule := fun v => some (if strIn "erp" (lowerStr v) then "ERP" else "Non-ERP") },
   { key := "has_auto_approval", source := "approval_workflow",
     rule := fun v =>
       if strIn "auto" (lowerStr v) then some "Yes"
       else if strIn "manual" (lowerStr v) then some "No"
       else none }]

/-!
## Proof-side helper definitions

These do not embed source code; they name derived views of the
definitions above that the theorems and their proofs use.
-/

/-- The `(class, subclass)` pair of a schema entry. -/
def attrKey (a : AttrSpec) : String × String := (a.cls, a.subclass)

/-- The schema entries that `get_missing_attributes` selects, in schema
order (before the order-sort, which is the identity here). -/
def missingSpecs (d : CollectedData) : List AttrSpec :=
  REQUIRED_ATTRIBUTES.filter (fun a => !a.optional && isMissingIn d a.name)

/-- The `(name, order)` items of one `(class, subclass)` group. -/
def groupItems (m : List AttrSpec) (k : String × String) : List (String × Nat) :=
  (m.filter (fun a => attrKey a = k)).map (fun a => (a.name, a.order))

/-- Position of a `(class, subclass)` pair in a flow list. -/
def posIn : List (String × String) → (String × String) → Nat
  | [], _ => 0
  | c :: rest, x => if c = x then 0 else posIn rest x + 1

/-- Position of a `(class, subclass)` pair in `SUBCLASS_FLOW_ORDER`. -/
def flowPos (cs : String × String) : Nat := posIn SUBCLASS_FLOW_ORDER cs

/-- The subclass of the current focus area, if any. -/
def focusSubclass (d : CollectedData) : Option String :=
  (get_current_focus_area d).map (fun fa => fa.subclass)

/-- The stuck-measure bookkeeping: whether the stored `last_subclass`
names the current focus subclass (so `subclass_attempts` counts turns
spent on the current topic). -/
def matchesLast (s : OMState) : Bool :=
  match focusSubclass s.collected_data, s.last_subclass with
  | some c, some c' => c = c'
  | _, _ => false

/-- Termination measure for the empty-extraction interview: three turns
per remaining topic, one final completion turn, minus credit for attempts
already spent on the current topic. -/
def turnMeasure (s : OMState) : Nat :=
  3 * (get_missing_by_subclass s.collected_data).length + 1 -
    (if matchesLast s then min s.subclass_attempts 2 else 0)

/-- Invariant for the empty-extraction interview: whenever
`last_subclass` still names the current focus subclass, fewer than three
attempts have been counted against it. -/
def attemptsInv (s : OMState) : Prop :=
  matchesLast s = true → s.subclass_attempts ≤ 2

/-!
Concrete fixtures used by counterexamples and witnesses.
-/

/-- An oracle turn whose extraction captured nothing. -/
def emptyOracle : TurnOracle := { extracted := [], questionReply := none }

/-- An oracle turn that keeps re-extracting a value for the optional
attribute `intake_timestamp` (never on the mandatory missing list). -/
def capOracle : TurnOracle :=
  { extracted := [("intake_timestamp", some "Manual logging")],
    questionReply := none }

/-- An oracle turn that captures the mandatory attribute `source_channel`. -/
def capSourceOracle : TurnOracle :=
  { extracted := [("source_channel", some "EDI 850 from retailers")],
    questionReply := none }

/-- The collected data after any number of `capOracle` turns. -/
def dIntake : CollectedData :=
  fun k => if k = "intake_timestamp" then some "Manual logging" else none

/-- A session state in which an earlier turn captured `source_channel`. -/
def dSource : CollectedData :=
  fun k => if k = "source_channel" then some "EDI 850 from retailers" else none

/-- A gap-analysis snapshot: 15 of the 16 reference keys captured with a
value no heuristic fires on (`credit_decision_to_customer` missing). -/
def gapData15 : List (String × String) :=
  [("order_origin_channels", "fine"), ("manual_intake_method", "fine"),
   ("order_receiver", "fine"), ("captured_data_fields", "fine"),
   ("primary_order_system", "fine"), ("manual_data_verification", "fine"),
   ("automated_data_capture", "fine"), ("required_verification_fields", "fine"),
   ("verification_success_rate", "fine"), ("verification_owner", "fine"),
   ("credit_approval_type", "fine"), ("auto_approval_limit", "fine"),
   ("manual_credit_approver", "fine"), ("credit_decision_factors", "fine"),
   ("credit_decision_to_sales", "fine")]

/-- A gap-analysis snapshot: 8 of the 16 reference keys captured, all
classified as aligned (the scenario of spec §8). -/
def gapData8 : List (String × String) :=
  [("order_origin_channels", "fine"), ("manual_intake_method", "fine"),
   ("order_receiver", "fine"), ("captured_data_fields", "fine"),
   ("primary_order_system", "fine"), ("manual_data_verification", "fine"),
   ("automated_data_capture", "fine"), ("required_verification_fields", "fine")]

/-- Modelled from the spec's words (§4.5): "Score = round(100 × |strength|
/ |referenceTable|)" — rounding to the nearest integer (half up), to be
compared against the score the code computes. -/
def specRoundScore (strengthCount tableSize : Nat) : Nat :=
  (200 * strengthCount + tableSize) / (2 * tableSize)

/-- A state stuck on the Order Intake topic with both budgets exhausted:
the next non-capturing turn force-skips. -/
def stuckState : OMState :=
  { active := true, collected_data := dSource,
    conversation_history := [], user_responses := [],
    user_style := "neutral", question_count := 3, current_focus := none,
    last_subclass := some "Order Intake", subclass_attempts := 2,
    clarification_count := 2 }

/-- Collected data for the C9 witness: the first and third mandatory
attributes captured by one utterance, the second still missing. -/
def dMultiCapture : CollectedData :=
  fun k =>
    if k = "source_channel" then some "EDI 850 from retailers"
    else if k = "pricing_logic" then some "Contractual pricing in master"
    else none

/-- Demo collected data for the inference-engine witness. -/
def dInferDemo : CollectedData :=
  fun k =>
    if k = "primary_order_system" then some "SAP ERP" else none

/-- A fully answered session (every key holds a value). -/
def dFull : CollectedData := fun _ => some "recorded"

/-- Five turns: two non-capturing short answers, one that captures
`source_channel`, then two more non-capturing short answers. -/
def demoInputs5 : List (String × TurnOracle) :=
  [("hi", emptyOracle), ("hi", emptyOracle), ("EDI orders", capSourceOracle),
   ("hi", emptyOracle), ("hi", emptyOracle)]

/-!
# Theorems

General-purpose lemmas first, then one theorem per claim (with its
counterexample and witness where required).
-/

/-- `mergeExtracted` with an empty extraction changes nothing. -/
theorem mergeExtracted_nil (d : CollectedData) : mergeExtracted d [] = d := rfl

/-- Generic: `find?` over an append scans the left list first. -/
theorem find?_append {α : Type} (p : α → Bool) :
    ∀ (l₁ l₂ : List α), (l₁ ++ l₂).find? p =
      match l₁.find? p with
      | some a => some a
      | none => l₂.find? p
  | [], _ => rfl
  | a :: l₁, l₂ => by
    by_cases h : p a = true
    · simp [List.find?_cons, h]
    · simp only [Bool.not_eq_true] at h
      simp [List.find?_cons, h, find?_append p l₁ l₂]

/-- The merge loop of `process_input` is last-write-wins: a key picks up
the value of the last non-null extracted pair for it, and keys with no
non-null pair this turn are unchanged. -/
theorem mergeExtracted_last_write (e : List (String × Option String)) :
    ∀ (d : CollectedData) (k : String),
    mergeExtracted d e k =
      match e.reverse.find? (fun kv => kv.1 = k && kv.2.isSome) with
      | some kv => kv.2
      | none => d k := by
  induction e with
  | nil => intro d k; rfl
  | cons kv e ih =>
    intro d k
    have hstep : mergeExtracted d (kv :: e) =
        mergeExtracted (match kv.2 with
          | some v => setKey d kv.1 v
          | none => d) e := rfl
    rw [hstep, ih]
    have hrev : (kv :: e).reverse = e.reverse ++ [kv] := by simp
    rw [hrev, find?_append]
    cases hfind : e.reverse.find? (fun kv => kv.1 = k && kv.2.isSome) with
    | some kv' => rfl
    | none =>
      cases hv : kv.2 with
      | none => simp [List.find?, hv, setKey]
      | some v =>
        by_cases hk : kv.1 = k
        · subst hk
          simp [List.find?, hv, setKey]
        · have : (decide (kv.1 = k) && (kv.2).isSome) = false := by
            simp [hk]
          simp [List.find?, this, setKey, Ne.symm hk]

/--
C1: the claim's first-write rule is false on the code: the merge loop of
`process_input` (lines 50-54 of `order_mgmt.py`) assigns
`state["collected_data"][attr_name] = attr_value` unconditionally, so a
key already present before the turn is overwritten by this turn's
extraction.  Concretely: `source_channel` was "EDI 850 from retailers",
the turn extracts `source_channel = "Phone"`, and after `process_input`
the stored value is "Phone".
-/
theorem process_input_overwrites_existing_key :
    (process_input
        { extracted := [("source_channel", some "Phone")], questionReply := none }
        "We also take phone orders sometimes"
        { get_initial_state with collected_data := dSource }).state.collected_data
        "source_channel" = some "Phone" ∧
    dSource "source_channel" = some "EDI 850 from retailers" ∧
    (process_input
        { extracted := [("source_channel", some "Phone")], questionReply := none }
        "We also take phone orders sometimes"
        { get_initial_state with collected_data := dSource }).state.collected_data
        "source_channel" ≠ dSource "source_channel" := by
  refine ⟨by decide, by decide, by decide⟩

/--
C1 (amended): the merge of extracted pairs into `collected_data` in
`process_input` is last-write-wins, not first-write: after the merge a
key holds the value of the last non-null extracted pair for it this turn
(for the Python dict of extracted pairs, the key's non-null value), and a
key for which this turn's extraction has no non-null pair is unchanged.
-/
theorem mergeExtracted_is_last_write_wins (d : CollectedData)
    (e : List (String × Option String)) (k : String) :
    mergeExtracted d e k =
      match e.reverse.find? (fun kv => kv.1 = k && kv.2.isSome) with
      | some kv => kv.2
      | none => d k :=
  mergeExtracted_last_write e d k

/--
C10: on an empty (falsy) collected-data snapshot, `analyze_gaps` returns
score 0, empty `gaps` and `strengths`, and a `missing` list holding every
reference-table key as a bare string (not the `{attribute, standard,
risk, issue}` record of the main branch), and the returned dict has no
`captured_count`/`total_required` entries (modelled as `none`).
-/
theorem analyze_gaps_empty_snapshot :
    analyze_gaps [] =
      { gaps := [], strengths := [],
        missing := SAP_BEST_PRACTICES.map (fun bp => MissingEntry.bare bp.key),
        score := 0, captured_count := none, total_required := none } ∧
    (analyze_gaps []).missing.length = SAP_BEST_PRACTICES.length := by
  constructor
  · rfl
  · decide

/-- Counting lemma for the `analyze_gaps` loop: each reference key lands
in exactly one of the three result lists. -/
theorem gapStep_count (collected : List (String × String)) :
    ∀ (l : List BestPractice)
      (init : List GapInfo × List StrengthInfo × List MissingEntry),
      (l.foldl (gapStep collected) init).1.length +
      (l.foldl (gapStep collected) init).2.1.length +
      (l.foldl (gapStep collected) init).2.2.length =
        init.1.length + init.2.1.length + init.2.2.length + l.length := by
  intro l
  induction l with
  | nil => intro init; simp
  | cons bp l ih =>
    intro init
    rw [List.foldl_cons, ih]
    show _ = init.1.length + init.2.1.length + init.2.2.length + (l.length + 1)
    rcases init with ⟨gaps, strengths, missing⟩
    unfold gapStep
    cases dictLookup collected bp.key with
    | none => simp; omega
    | some v =>
      by_cases hc : (classifyAttr bp.key v bp).1 = true
      · simp [hc]; omega
      · simp only [Bool.not_eq_true] at hc
        simp [hc]; omega

/--
C4 counterexample: the score is not `round(100 × |strengths| /
|referenceTable|)`.  On a snapshot with 15 of the 16 reference keys
captured and aligned, the code computes `int(15/16*100) = 93` while
rounding gives 94.
-/
theorem analyze_gaps_score_is_not_rounded :
    (analyze_gaps gapData15).strengths.length = 15 ∧
    (analyze_gaps gapData15).score = 93 ∧
    specRoundScore (analyze_gaps gapData15).strengths.length
      SAP_BEST_PRACTICES.length = 94 ∧
    (analyze_gaps gapData15).score ≠
      specRoundScore (analyze_gaps gapData15).strengths.length
        SAP_BEST_PRACTICES.length := by
  refine ⟨by decide, by decide, by decide, by decide⟩

/--
C4 (amended): `analyze_gaps` computes score = ⌊100 × |strengths| /
|referenceTable|⌋ (Python `int(...)` truncation, not `round`); the
denominator is the full reference-table size, and every reference key is
classified into exactly one of strengths/gaps/missing; in the spec's
scenario (16-key table, 8 captured keys all aligned) the score is 50,
where truncation and rounding agree.
-/
theorem analyze_gaps_score_floor (collected : List (String × String)) :
    (analyze_gaps collected).score =
      (analyze_gaps collected).strengths.length * 100 /
        SAP_BEST_PRACTICES.length ∧
    (analyze_gaps collected).gaps.length +
      (analyze_gaps collected).strengths.length +
      (analyze_gaps collected).missing.length = SAP_BEST_PRACTICES.length ∧
    (analyze_gaps gapData8).strengths.length = 8 ∧
    (analyze_gaps gapData8).score = 50 := by
  refine ⟨?_, ?_, by decide, by decide⟩
  · by_cases h : collected.isEmpty
    · simp [analyze_gaps, h]
    · have hpos : SAP_BEST_PRACTICES.length > 0 := by decide
      simp [analyze_gaps, h, hpos]
  · by_cases h : collected.isEmpty
    · simp only [analyze_gaps, h, if_true]
      decide
    · simp only [analyze_gaps, h, Bool.false_eq_true, if_false]
      have := gapStep_count collected SAP_BEST_PRACTICES ([], [], [])
      simpa using this

/--
C8: on any oracle failure — an errored call (`call_qwen` caught the
exception and returned `None`), an empty reply, or a reply from which no
JSON object can be parsed — `extract_all_mentioned_attributes` returns
the empty mapping (raising nothing: every path is total), and
`process_input` treats such a turn exactly as a turn in which the user
said nothing useful (identical to an empty extraction; the collected
data is unchanged by the merge and nothing counts as captured).
-/
theorem extraction_failure_is_silent
    (jsonLoads : String → Option (List (String × Option String)))
    (response : Option String) (h : extractionFailed jsonLoads response) :
    extract_all_mentioned_attributes jsonLoads response = [] ∧
    ∀ (q : Option String) (u : String) (s : OMState),
      process_input
          { extracted := extract_all_mentioned_attributes jsonLoads response,
            questionReply := q } u s =
        process_input { extracted := [], questionReply := q } u s ∧
      mergeExtracted s.collected_data
          (extract_all_mentioned_attributes jsonLoads response) =
        s.collected_data ∧
      capturedThisTurn
          (extract_all_mentioned_attributes jsonLoads response) = false := by
  have hempty : extract_all_mentioned_attributes jsonLoads response = [] := by
    cases response with
    | none => rfl
    | some resp =>
      show (if resp = "" then ([] : List (String × Option String))
            else
              if (trimStr resp).toList.contains '\x7b' then
                if (trimStr resp).toList.contains '\x7d' then
                  match jsonLoads (String.mk (braceSpan (trimStr resp).toList)) with
                  | some data => data
                  | none => []
                else []
              else []) = []
      by_cases h0 : resp = ""
      · rw [if_pos h0]
      · rw [if_neg h0]
        by_cases h1 : (trimStr resp).toList.contains '\x7b' = true
        · rw [if_pos h1]
          by_cases h2 : (trimStr resp).toList.contains '\x7d' = true
          · rw [if_pos h2]
            have hj : jsonLoads (String.mk (braceSpan (trimStr resp).toList)) =
                none := by
              rcases h with h | h | h | h
              · exact absurd h h0
              · rw [h] at h1; exact (Bool.false_ne_true h1).elim
              · rw [h] at h2; exact (Bool.false_ne_true h2).elim
              · exact h
            rw [hj]
          · rw [if_neg h2]
        · rw [if_neg h1]
  refine ⟨hempty, fun q u s => ?_⟩
  rw [hempty]
  exact ⟨rfl, rfl, rfl⟩

/-- Witness for C8 at a concrete failing oracle reply (no JSON object in
the text, and a parser that fails). -/
theorem extraction_failure_is_silent_witness :
    extract_all_mentioned_attributes (fun _ => none)
      (some "I could not find any attributes.") = [] ∧
    capturedThisTurn (extract_all_mentioned_attributes (fun _ => none)
      (some "I could not find any attributes.")) = false := by
  have h := extraction_failure_is_silent (fun _ => none)
    (some "I could not find any attributes.") (Or.inr (Or.inl (by decide)))
  exact ⟨h.1, (h.2 none "hi" get_initial_state).2.2⟩

/-- `inferStep` changes no key other than the spec's own. -/
theorem inferStep_apply_ne (d : CollectedData) (sp : InferenceSpec) (k : String)
    (h : sp.key ≠ k) : inferStep d sp k = d k := by
  cases hsv : d sp.source with
  | none => simp [inferStep, hsv]
  | some sv =>
    cases hk₀ : d sp.key with
    | some w => simp [inferStep, hsv, hk₀]
    | none =>
      cases hr : sp.rule sv with
      | some v => simp [inferStep, hsv, hk₀, hr, setKey, Ne.symm h]
      | none => simp [inferStep, hsv, hk₀, hr]

/-- `runInferences` changes no key outside the inference specs' keys. -/
theorem runInferences_apply_ne (specs : List InferenceSpec) :
    ∀ (d : CollectedData) (k : String), (∀ sp ∈ specs, sp.key ≠ k) →
      runInferences specs d k = d k := by
  induction specs with
  | nil => intro d _ _; rfl
  | cons sp specs ih =>
    intro d k h
    have hstep : runInferences (sp :: specs) d =
        runInferences specs (inferStep d sp) := rfl
    rw [hstep, ih _ k (fun s hs => h s (List.mem_cons_of_mem sp hs)),
        inferStep_apply_ne d sp k (h sp (List.mem_cons_self sp specs))]

/--
C3: the inference engine is idempotent — for every collected-data map,
running `runInferences` twice yields the same result as running it once,
under the spec's own data-model invariants: inference keys are globally
unique (§3) and every `inferenceSource` names a captured (asked) key,
never an inferred one.
-/
theorem runInferences_idempotent (specs : List InferenceSpec)
    (hkeys : (specs.map (fun sp => sp.key)).Nodup)
    (hsrc : ∀ sp ∈ specs, ∀ sp' ∈ specs, sp.source ≠ sp'.key) :
    ∀ d : CollectedData,
      runInferences specs (runInferences specs d) = runInferences specs d := by
  induction specs with
  | nil => intro d; rfl
  | cons sp specs ih =>
    rw [List.map_cons] at hkeys
    have hk : sp.key ∉ specs.map (fun sp => sp.key) := (List.nodup_cons.1 hkeys).1
    have hkeys' : (specs.map (fun sp => sp.key)).Nodup := (List.nodup_cons.1 hkeys).2
    have hsrc' : ∀ a ∈ specs, ∀ b ∈ specs, a.source ≠ b.key :=
      fun a ha b hb =>
        hsrc a (List.mem_cons_of_mem sp ha) b (List.mem_cons_of_mem sp hb)
    intro d
    have hs_sp : sp.source ≠ sp.key :=
      hsrc sp (List.mem_cons_self sp specs) sp (List.mem_cons_self sp specs)
    have hs_specs : ∀ b ∈ specs, sp.source ≠ b.key :=
      fun b hb =>
        hsrc sp (List.mem_cons_self sp specs) b (List.mem_cons_of_mem sp hb)
    have hrun : ∀ d' : CollectedData, runInferences (sp :: specs) d' =
        runInferences specs (inferStep d' sp) := fun _ => rfl
    have hsource₂ : runInferences specs (inferStep d sp) sp.source =
        inferStep d sp sp.source :=
      runInferences_apply_ne specs _ sp.source
        (fun b hb => Ne.symm (hs_specs b hb))
    have hkey₂ : runInferences specs (inferStep d sp) sp.key =
        inferStep d sp sp.key :=
      runInferences_apply_ne specs _ sp.key
        (fun b hb hbk => hk (hbk ▸ List.mem_map_of_mem (fun sp => sp.key) hb))
    have hsource₁ : inferStep d sp sp.source = d sp.source :=
      inferStep_apply_ne d sp sp.source (Ne.symm hs_sp)
    have hfix : inferStep (runInferences specs (inferStep d sp)) sp =
        runInferences specs (inferStep d sp) := by
      cases hsv : d sp.source with
      | none =>
        have hS : runInferences specs (inferStep d sp) sp.source = none := by
          rw [hsource₂, hsource₁, hsv]
        set d₂ := runInferences specs (inferStep d sp) with hd₂
        simp [inferStep, hS]
      | some sv =>
        have hS : runInferences specs (inferStep d sp) sp.source = some sv := by
          rw [hsource₂, hsource₁, hsv]
        cases hk₀ : d sp.key with
        | some w =>
          have hd1 : inferStep d sp = d := by
            simp [inferStep, hsv, hk₀]
          have hK : runInferences specs (inferStep d sp) sp.key = some w := by
            rw [hkey₂, hd1, hk₀]
          set d₂ := runInferences specs (inferStep d sp) with hd₂
          simp [inferStep, hS, hK]
        | none =>
          cases hr : sp.rule sv with
          | some v =>
            have hd1 : inferStep d sp sp.key = some v := by
              simp [inferStep, hsv, hk₀, hr, setKey]
            have hK : runInferences specs (inferStep d sp) sp.key = some v := by
              rw [hkey₂, hd1]
            set d₂ := runInferences specs (inferStep d sp) with hd₂
            simp [inferStep, hS, hK]
          | none =>
            have hd1 : inferStep d sp = d := by
              simp [inferStep, hsv, hk₀, hr]
            have hK : runInferences specs (inferStep d sp) sp.key = none := by
              rw [hkey₂, hd1, hk₀]
            set d₂ := runInferences specs (inferStep d sp) with hd₂
            simp [inferStep, hS, hK, hr]
    show runInferences specs
        (inferStep (runInferences specs (inferStep d sp)) sp) =
      runInferences specs (inferStep d sp)
    rw [hfix]
    exact ih hkeys' hsrc' (inferStep d sp)

/-- Witness for C3 on the demo inference specs and demo data. -/
theorem runInferences_idempotent_witness :
    (demoInferences.map (fun sp => sp.key)).Nodup ∧
    (∀ sp ∈ demoInferences, ∀ sp' ∈ demoInferences, sp.source ≠ sp'.key) ∧
    runInferences demoInferences (runInferences demoInferences dInferDemo) =
      runInferences demoInferences dInferDemo :=
  ⟨by decide, by decide,
   runInferences_idempotent demoInferences (by decide) (by decide) dInferDemo⟩

/-!
### Branch equations for `process_input`

One equation per return site (completion, clarification, question), under
the branch's guard.
-/

/-- The completion branch: taken exactly when nothing mandatory is
missing after the merge. -/
theorem process_input_completed (o : TurnOracle) (u : String) (s : OMState)
    (h : get_missing_attributes (mergeExtracted s.collected_data o.extracted) = []) :
    process_input o u s =
      { response := completionResponse,
        state := { s with
          active := false,
          collected_data := mergeExtracted s.collected_data o.extracted,
          conversation_history := (s.conversation_history ++ ["User: " ++ u]) ++
            ["Bot: " ++ completionResponse],
          user_responses := s.user_responses ++ [u],
          user_style :=
            if (s.user_responses ++ [u]).length ≥ 2 then
              assess_conversation_style (lastN 3 (s.user_responses ++ [u]))
            else s.user_style },
        saved := true, skipped := false, outcome := .completed } := by
  simp only [process_input, h]
  rfl

/-- The clarification branch: taken when something mandatory is missing,
the turn captured nothing, the utterance is under 15 words, and neither
the clarification budget (2) nor the per-topic attempt budget (3) is
exhausted. -/
theorem process_input_clarification (o : TurnOracle) (u : String) (s : OMState)
    (h : get_missing_attributes (mergeExtracted s.collected_data o.extracted) ≠ [])
    (hgate : (!capturedThisTurn o.extracted && decide (pyWordCount u < 15) &&
        (decide (s.clarification_count < 2) &&
          decide ((updateAttempts (capturedThisTurn o.extracted)
              (Option.map (fun fa => fa.subclass)
                (get_current_focus_area (mergeExtracted s.collected_data o.extracted)))
              s.last_subclass s.subclass_attempts).1 < 3))) = true) :
    process_input o u s =
      { response := clarificationText
          (get_current_focus_area (mergeExtracted s.collected_data o.extracted)),
        state := { s with
          collected_data := mergeExtracted s.collected_data o.extracted,
          conversation_history := (s.conversation_history ++ ["User: " ++ u]) ++
            ["Bot: " ++ clarificationText
              (get_current_focus_area (mergeExtracted s.collected_data o.extracted))],
          user_responses := s.user_responses ++ [u],
          user_style :=
            if (s.user_responses ++ [u]).length ≥ 2 then
              assess_conversation_style (lastN 3 (s.user_responses ++ [u]))
            else s.user_style,
          current_focus := get_current_focus_area
            (mergeExtracted s.collected_data o.extracted),
          last_subclass := (updateAttempts (capturedThisTurn o.extracted)
            (Option.map (fun fa => fa.subclass)
              (get_current_focus_area (mergeExtracted s.collected_data o.extracted)))
            s.last_subclass s.subclass_attempts).2,
          subclass_attempts := (updateAttempts (capturedThisTurn o.extracted)
            (Option.map (fun fa => fa.subclass)
              (get_current_focus_area (mergeExtracted s.collected_data o.extracted)))
            s.last_subclass s.subclass_attempts).1,
          clarification_count := s.clarification_count + 1 },
        saved := false, skipped := false, outcome := .clarification } := by
  have hlen : ¬((get_missing_attributes
      (mergeExtracted s.collected_data o.extracted)).length = 0) :=
    fun hl => h (List.length_eq_zero.1 hl)
  simp only [process_input]
  rw [if_neg hlen, if_pos hgate]

/-- The question branch: taken when something mandatory is missing and
the clarification gate fails; may force-skip the stuck topic first. -/
theorem process_input_asked (o : TurnOracle) (u : String) (s : OMState)
    (h : get_missing_attributes (mergeExtracted s.collected_data o.extracted) ≠ [])
    (hgate : (!capturedThisTurn o.extracted && decide (pyWordCount u < 15) &&
        (decide (s.clarification_count < 2) &&
          decide ((updateAttempts (capturedThisTurn o.extracted)
              (Option.map (fun fa => fa.subclass)
                (get_current_focus_area (mergeExtracted s.collected_data o.extracted)))
              s.last_subclass s.subclass_attempts).1 < 3))) = false) :
    process_input o u s =
      (let md := mergeExtracted s.collected_data o.extracted
       let al := updateAttempts (capturedThisTurn o.extracted)
         (Option.map (fun fa => fa.subclass) (get_current_focus_area md))
         s.last_subclass s.subclass_attempts
       let sk := skipStep al.1 md (get_current_focus_area md)
         (get_missing_attributes md)
       { response := generate_next_question o.questionReply sk.2.2.2.1 sk.2.1,
         state := { s with
           collected_data := sk.1,
           conversation_history := (s.conversation_history ++ ["User: " ++ u]) ++
             ["Bot: " ++ generate_next_question o.questionReply sk.2.2.2.1 sk.2.1],
           user_responses := s.user_responses ++ [u],
           user_style :=
             if (s.user_responses ++ [u]).length ≥ 2 then
               assess_conversation_style (lastN 3 (s.user_responses ++ [u]))
             else s.user_style,
           question_count := s.question_count + 1,
           current_focus := sk.2.1,
           last_subclass := al.2,
           subclass_attempts := sk.2.2.1,
           clarification_count :=
             if capturedThisTurn o.extracted then 0 else s.clarification_count },
         saved := false, skipped := sk.2.2.2.2, outcome := .asked }) := by
  have hlen : ¬((get_missing_attributes
      (mergeExtracted s.collected_data o.extracted)).length = 0) :=
    fun hl => h (List.length_eq_zero.1 hl)
  have hgate' : ¬((!capturedThisTurn o.extracted && decide (pyWordCount u < 15) &&
      (decide (s.clarification_count < 2) &&
        decide ((updateAttempts (capturedThisTurn o.extracted)
            (Option.map (fun fa => fa.subclass)
              (get_current_focus_area (mergeExtracted s.collected_data o.extracted)))
            s.last_subclass s.subclass_attempts).1 < 3))) = true) :=
    fun hg => Bool.false_ne_true (hgate ▸ hg)
  simp only [process_input]
  rw [if_neg hlen, if_neg hgate']

/-- The force-skip write loop either leaves a key alone or writes the
sentinel to a previously absent key. -/
theorem skipFill_spec (attrs : List String) : ∀ (d : CollectedData) (k : String),
    skipFill d attrs k = d k ∨
      (d k = none ∧ skipFill d attrs k = some "[Not discussed]") := by
  induction attrs with
  | nil => intro d k; exact Or.inl rfl
  | cons a rest ih =>
    intro d k
    have hstep : skipFill d (a :: rest) =
        skipFill (if (d a).isNone then setKey d a "[Not discussed]" else d) rest :=
      rfl
    rw [hstep]
    by_cases ha : (d a).isNone
    · rw [if_pos ha]
      rcases ih (setKey d a "[Not discussed]") k with hk | ⟨h1, h2⟩
      · rw [hk]
        by_cases hka : k = a
        · subst hka
          right
          refine ⟨Option.isNone_iff_eq_none.1 ha, ?_⟩
          simp [setKey]
        · left; simp [setKey, hka]
      · by_cases hka : k = a
        · subst hka
          simp [setKey] at h1
        · right
          refine ⟨?_, h2⟩
          simpa [setKey, hka] using h1
    · rw [if_neg ha]
      exact ih d k

/-- A key already holding a value is untouched by the force-skip loop. -/
theorem skipFill_preserves (attrs : List String) (d : CollectedData) (k v : String)
    (h : d k = some v) : skipFill d attrs k = some v := by
  rcases skipFill_spec attrs d k with hs | ⟨h0, _⟩
  · rw [hs, h]
  · rw [h] at h0; cases h0

/-- Unfolding `skipStep` in its two cases. -/
theorem skipStep_spec (att : Nat) (md : CollectedData) (fo : Option FocusArea)
    (miss : List String) :
    (3 ≤ att ∧ fo.isSome = true ∧
      skipStep att md fo miss =
        (skipFill md (match fo with | some fa => fa.attributes | none => []),
         get_current_focus_area
           (skipFill md (match fo with | some fa => fa.attributes | none => [])),
         0,
         get_missing_attributes
           (skipFill md (match fo with | some fa => fa.attributes | none => [])),
         true)) ∨
    (¬(3 ≤ att ∧ fo.isSome = true) ∧
      skipStep att md fo miss = (md, fo, att, miss, false)) := by
  by_cases hc : 3 ≤ att ∧ fo.isSome = true
  · left
    refine ⟨hc.1, hc.2, ?_⟩
    unfold skipStep
    rw [if_pos hc]
  · right
    refine ⟨hc, ?_⟩
    unfold skipStep
    rw [if_neg hc]

/-- A no-capture extraction leaves the collected data untouched. -/
theorem mergeExtracted_no_capture (e : List (String × Option String)) :
    capturedThisTurn e = false → ∀ d : CollectedData, mergeExtracted d e = d := by
  induction e with
  | nil => intro _ d; rfl
  | cons kv rest ih =>
    intro h d
    have h' : kv.2.isSome = false ∧ capturedThisTurn rest = false := by
      unfold capturedThisTurn at h
      rw [List.any_cons] at h
      exact ⟨(Bool.or_eq_false_iff.1 h).1, (Bool.or_eq_false_iff.1 h).2⟩
    have hkv : kv.2 = none := Option.not_isSome_iff_eq_none.1 (by simp [h'.1])
    have hstep : mergeExtracted d (kv :: rest) =
        mergeExtracted (match kv.2 with
          | some v => setKey d kv.1 v
          | none => d) rest := rfl
    rw [hstep, hkv]
    exact ih h'.2 d

/-- When a turn force-skips, the collected data is the merged map with
the sentinel filled into the skipped topic's attributes. -/
theorem process_input_skipped_collected (o : TurnOracle) (u : String) (s : OMState)
    (hskip : (process_input o u s).skipped = true) :
    ∃ attrs : List String,
      (process_input o u s).state.collected_data =
        skipFill (mergeExtracted s.collected_data o.extracted) attrs := by
  by_cases hm : get_missing_attributes (mergeExtracted s.collected_data o.extracted) = []
  · rw [process_input_completed o u s hm] at hskip
    cases hskip
  · cases hgate : (!capturedThisTurn o.extracted && decide (pyWordCount u < 15) &&
        (decide (s.clarification_count < 2) &&
          decide ((updateAttempts (capturedThisTurn o.extracted)
              (Option.map (fun fa => fa.subclass)
                (get_current_focus_area (mergeExtracted s.collected_data o.extracted)))
              s.last_subclass s.subclass_attempts).1 < 3))) with
    | true =>
      rw [process_input_clarification o u s hm hgate] at hskip
      cases hskip
    | false =>
      rw [process_input_asked o u s hm hgate] at hskip ⊢
      simp only [] at hskip ⊢
      rcases skipStep_spec
          ((updateAttempts (capturedThisTurn o.extracted)
            (Option.map (fun fa => fa.subclass)
              (get_current_focus_area (mergeExtracted s.collected_data o.extracted)))
            s.last_subclass s.subclass_attempts).1)
          (mergeExtracted s.collected_data o.extracted)
          (get_current_focus_area (mergeExtracted s.collected_data o.extracted))
          (get_missing_attributes (mergeExtracted s.collected_data o.extracted))
        with ⟨_, _, hsk⟩ | ⟨_, hsk⟩
      · rw [hsk]
        exact ⟨_, rfl⟩
      · rw [hsk] at hskip
        cases hskip

/--
C7: a force-skip never overwrites a key already holding a value: whenever
the force-skip branch of `process_input` runs, every key that held a
value after this turn's merge holds the same value afterwards, and any
key the turn's final map disagrees on was absent and now holds the
"[Not discussed]" sentinel.
-/
theorem force_skip_never_overwrites (o : TurnOracle) (u : String) (s : OMState)
    (hskip : (process_input o u s).skipped = true) :
    (∀ k v, mergeExtracted s.collected_data o.extracted k = some v →
      (process_input o u s).state.collected_data k = some v) ∧
    (∀ k, (process_input o u s).state.collected_data k ≠
        mergeExtracted s.collected_data o.extracted k →
      mergeExtracted s.collected_data o.extracted k = none ∧
      (process_input o u s).state.collected_data k = some "[Not discussed]") := by
  rcases process_input_skipped_collected o u s hskip with ⟨attrs, hcd⟩
  rw [hcd]
  constructor
  · intro k v hv
    exact skipFill_preserves attrs _ k v hv
  · intro k hne
    rcases skipFill_spec attrs (mergeExtracted s.collected_data o.extracted) k with
      hs | ⟨h0, h1⟩
    · exact absurd hs hne
    · exact ⟨h0, h1⟩

/-- Witness for C7: in `stuckState` (attempt budget exhausted) the next
non-capturing turn force-skips, and the previously captured
`source_channel` keeps its value. -/
theorem force_skip_never_overwrites_witness :
    (process_input emptyOracle "hello" stuckState).skipped = true ∧
    (process_input emptyOracle "hello" stuckState).state.collected_data
      "source_channel" = some "EDI 850 from retailers" := by
  have h := force_skip_never_overwrites emptyOracle "hello" stuckState (by decide)
  exact ⟨by decide, h.1 "source_channel" "EDI 850 from retailers" (by decide)⟩

/-- Per-turn completion facts: the completion branch runs exactly when
nothing mandatory is missing after the merge; `save_record` is called
exactly on that branch; and that branch deactivates the session, answers
with the fixed acknowledgement, and persists the merged map. -/
theorem process_input_completed_iff (o : TurnOracle) (u : String) (s : OMState) :
    ((process_input o u s).outcome = .completed ↔
      get_missing_attributes (mergeExtracted s.collected_data o.extracted) = []) ∧
    ((process_input o u s).saved = true ↔
      (process_input o u s).outcome = .completed) ∧
    ((process_input o u s).outcome = .completed →
      (process_input o u s).state.active = false ∧
      (process_input o u s).response = completionResponse ∧
      (process_input o u s).state.collected_data =
        mergeExtracted s.collected_data o.extracted) := by
  by_cases hm : get_missing_attributes (mergeExtracted s.collected_data o.extracted) = []
  · rw [process_input_completed o u s hm]
    simp [hm]
  · cases hgate : (!capturedThisTurn o.extracted && decide (pyWordCount u < 15) &&
        (decide (s.clarification_count < 2) &&
          decide ((updateAttempts (capturedThisTurn o.extracted)
              (Option.map (fun fa => fa.subclass)
                (get_current_focus_area (mergeExtracted s.collected_data o.extracted)))
              s.last_subclass s.subclass_attempts).1 < 3))) with
    | true =>
      rw [process_input_clarification o u s hm hgate]
      simp [hm]
    | false =>
      rw [process_input_asked o u s hm hgate]
      simp [hm]

/-- Once the session is inactive the orchestrator processes no turn. -/
theorem runResults_inactive (inputs : List (String × TurnOracle)) (s : OMState)
    (h : s.active = false) : runResults inputs s = [] := by
  cases inputs with
  | nil => rfl
  | cons i rest =>
    obtain ⟨u, o⟩ := i
    simp [runResults, h]

/-- Unfolding one active turn of `runResults`. -/
theorem runResults_cons_active (u : String) (o : TurnOracle)
    (rest : List (String × TurnOracle)) (s : OMState) (h : s.active = true) :
    runResults ((u, o) :: rest) s =
      process_input o u s :: runResults rest (process_input o u s).state := by
  simp [runResults, h]

/-- At most one turn of a session persists a record. -/
theorem runResults_saves_le_one (inputs : List (String × TurnOracle)) :
    ∀ s : OMState,
      ((runResults inputs s).filter (fun r => r.saved)).length ≤ 1 := by
  induction inputs with
  | nil => intro s; simp [runResults]
  | cons i rest ih =>
    intro s
    obtain ⟨u, o⟩ := i
    cases ha : s.active with
    | false => rw [runResults_inactive _ s ha]; simp
    | true =>
      rw [runResults_cons_active u o rest s ha]
      cases hs : (process_input o u s).saved with
      | true =>
        have hcmp := (process_input_completed_iff o u s).2.1.1 hs
        have hact := ((process_input_completed_iff o u s).2.2 hcmp).1
        rw [runResults_inactive rest _ hact]
        simp [hs]
      | false =>
        rw [List.filter_cons]
        simp only [hs, Bool.false_eq_true, if_false]
        exact ih _

/--
C6: `process_input` transitions to Completed exactly when, after this
turn's extraction and merge, no mandatory attribute is missing; in that
case and only that case it calls `save_record` (persisting the merged
collected data to the append-only sink), sets `active = false`, and
returns the fixed completion acknowledgement; and over a whole
orchestrated session at most one turn persists (the terminal one, since
completing deactivates the session and the orchestrator then stops).
-/
theorem completion_terminal_and_persists_once (o : TurnOracle) (u : String)
    (s : OMState) (inputs : List (String × TurnOracle)) :
    ((process_input o u s).outcome = .completed ↔
      get_missing_attributes (mergeExtracted s.collected_data o.extracted) = []) ∧
    ((process_input o u s).saved = true ↔
      (process_input o u s).outcome = .completed) ∧
    ((process_input o u s).outcome = .completed →
      (process_input o u s).state.active = false ∧
      (process_input o u s).response = completionResponse ∧
      (process_input o u s).state.collected_data =
        mergeExtracted s.collected_data o.extracted) ∧
    ((runResults inputs get_initial_state).filter (fun r => r.saved)).length ≤ 1 :=
  ⟨(process_input_completed_iff o u s).1,
   (process_input_completed_iff o u s).2.1,
   (process_input_completed_iff o u s).2.2,
   runResults_saves_le_one inputs get_initial_state⟩

/-- Witness for C6 at a fully answered session: the turn completes,
saves, deactivates, and returns the fixed acknowledgement. -/
theorem completion_terminal_witness :
    (process_input emptyOracle "thanks"
      { get_initial_state with collected_data := dFull }).outcome =
        TurnOutcome.completed ∧
    (process_input emptyOracle "thanks"
      { get_initial_state with collected_data := dFull }).state.active = false ∧
    (process_input emptyOracle "thanks"
      { get_initial_state with collected_data := dFull }).response =
        completionResponse := by
  have h := completion_terminal_and_persists_once emptyOracle "thanks"
    { get_initial_state with collected_data := dFull } []
  have hc : (process_input emptyOracle "thanks"
      { get_initial_state with collected_data := dFull }).outcome =
        TurnOutcome.completed := h.1.2 (by decide)
  exact ⟨hc, (h.2.2.1 hc).1, (h.2.2.1 hc).2.1⟩

/-- The Boolean clarification gate, as a proposition. -/
theorem gateBool_iff (c : Bool) (p q r : Prop)
    [Decidable p] [Decidable q] [Decidable r] :
    ((!c && decide p) && (decide q && decide r)) = true ↔
      (c = false ∧ p ∧ q ∧ r) := by
  simp [Bool.and_eq_true, decide_eq_true_eq, Bool.not_eq_true', and_assoc]

/--
C5 (amended): a clarification is emitted exactly when this turn captured
nothing, the utterance is under the fixed 15-word threshold, and neither
the clarification counter (max 2) nor the per-topic attempt counter
(max 3) is exhausted; a clarification turn does not advance the question
(the question counter and collected data are unchanged) and re-states the
pending question via `clarificationText`; the clarification counter never
exceeds 2 between captures but RESETS to 0 on any capturing
non-completing turn, so a session can emit more than 2 clarifications in
total.
-/
theorem clarification_gate (o : TurnOracle) (u : String) (s : OMState) :
    ((process_input o u s).outcome = .clarification ↔
      (get_missing_attributes (mergeExtracted s.collected_data o.extracted) ≠ [] ∧
       capturedThisTurn o.extracted = false ∧ pyWordCount u < 15 ∧
       s.clarification_count < 2 ∧
       (updateAttempts (capturedThisTurn o.extracted)
         (Option.map (fun fa => fa.subclass)
           (get_current_focus_area (mergeExtracted s.collected_data o.extracted)))
         s.last_subclass s.subclass_attempts).1 < 3)) ∧
    ((process_input o u s).outcome = .clarification →
      (process_input o u s).state.question_count = s.question_count ∧
      (process_input o u s).state.collected_data = s.collected_data ∧
      (process_input o u s).state.clarification_count =
        s.clarification_count + 1 ∧
      (process_input o u s).state.clarification_count ≤ 2 ∧
      (process_input o u s).response =
        clarificationText (get_current_focus_area s.collected_data)) ∧
    (capturedThisTurn o.extracted = true →
      (process_input o u s).outcome = .asked →
      (process_input o u s).state.clarification_count = 0) := by
  by_cases hm : get_missing_attributes (mergeExtracted s.collected_data o.extracted) = []
  · rw [process_input_completed o u s hm]
    simp [hm]
  · cases hgate : (!capturedThisTurn o.extracted && decide (pyWordCount u < 15) &&
        (decide (s.clarification_count < 2) &&
          decide ((updateAttempts (capturedThisTurn o.extracted)
              (Option.map (fun fa => fa.subclass)
                (get_current_focus_area (mergeExtracted s.collected_data o.extracted)))
              s.last_subclass s.subclass_attempts).1 < 3))) with
    | true =>
      obtain ⟨hcap, hwc, hcc, hat⟩ := (gateBool_iff _ _ _ _).1 hgate
      have hmd : mergeExtracted s.collected_data o.extracted = s.collected_data :=
        mergeExtracted_no_capture o.extracted hcap s.collected_data
      rw [process_input_clarification o u s hm hgate]
      refine ⟨?_, ?_, ?_⟩
      · simp only [true_iff]
        exact ⟨hm, hcap, hwc, hcc, hat⟩
      · intro _
        refine ⟨rfl, hmd, rfl, (by omega : s.clarification_count + 1 ≤ 2), ?_⟩
        rw [hmd]
      · intro hcap' _
        rw [hcap] at hcap'
        cases hcap'
    | false =>
      rw [process_input_asked o u s hm hgate]
      refine ⟨?_, ?_, ?_⟩
      · simp only []
        constructor
        · intro h'
          cases h'
        · intro ⟨_, hcap, hwc, hcc, hat⟩
          rw [(gateBool_iff _ _ _ _).2 ⟨hcap, hwc, hcc, hat⟩] at hgate
          cases hgate
      · intro h'
        cases h'
      · intro hcap' _
        simp only [hcap', if_true]

/--
C5 counterexample: the session-wide clarification budget of 2 is not
enforced — a capturing turn resets the counter, so this five-turn session
(two short non-capturing turns, one capture, two more short non-capturing
turns) emits 4 clarifications.
-/
theorem clarification_budget_exceeded :
    ((runResults demoInputs5 get_initial_state).filter
        (fun r => decide (r.outcome = TurnOutcome.clarification))).length = 4 ∧
    2 < ((runResults demoInputs5 get_initial_state).filter
        (fun r => decide (r.outcome = TurnOutcome.clarification))).length := by
  refine ⟨by decide, by decide⟩

/-- Witness for C5 on the first turn of a fresh session with a short,
non-capturing utterance. -/
theorem clarification_gate_witness :
    (process_input emptyOracle "hi" get_initial_state).outcome =
      TurnOutcome.clarification ∧
    (process_input emptyOracle "hi" get_initial_state).state.question_count = 0 ∧
    (process_input emptyOracle "hi" get_initial_state).state.clarification_count
      = 1 := by
  have h := clarification_gate emptyOracle "hi" get_initial_state
  have hc : (process_input emptyOracle "hi" get_initial_state).outcome =
      TurnOutcome.clarification := by decide
  refine ⟨hc, ?_, ?_⟩
  · have h1 := (h.2.1 hc).1
    simpa [get_initial_state] using h1
  · have h2 := (h.2.1 hc).2.2.1
    simpa [get_initial_state] using h2

/-!
### Structure of the schema: canonical order

The `order` fields and the flow positions of the `(class, subclass)`
pairs are monotone along `REQUIRED_ATTRIBUTES`, the attribute names are
distinct, and every schema entry's `(class, subclass)` pair occurs
exactly once in `SUBCLASS_FLOW_ORDER`.  These concrete facts make the
order-sort the identity and make "first missing group" agree with "first
missing attribute".
-/

/-- The stable insertion sort fixes an already-sorted list. -/
theorem sortByOrder_eq_self : ∀ {l : List (String × Nat)},
    l.Pairwise (fun a b => a.2 ≤ b.2) → sortByOrder l = l := by
  intro l h
  induction l with
  | nil => rfl
  | cons x xs ih =>
    rw [List.pairwise_cons] at h
    show insertByOrder x (sortByOrder xs) = x :: xs
    rw [ih h.2]
    cases xs with
    | nil => rfl
    | cons y ys =>
      show insertByOrder x (y :: ys) = x :: y :: ys
      unfold insertByOrder
      rw [if_pos (h.1 y (List.mem_cons_self y ys))]

/-- The `order` fields increase along the schema. -/
theorem schema_orders_pairwise :
    REQUIRED_ATTRIBUTES.Pairwise (fun a b => a.order ≤ b.order) := by decide

/-- The flow positions of the `(class, subclass)` pairs increase along
the schema. -/
theorem schema_flow_pairwise :
    REQUIRED_ATTRIBUTES.Pairwise
      (fun a b => flowPos (attrKey a) ≤ flowPos (attrKey b)) := by decide

/-- Every schema entry's `(class, subclass)` pair is in the flow order. -/
theorem schema_mem_flow :
    ∀ a ∈ REQUIRED_ATTRIBUTES, attrKey a ∈ SUBCLASS_FLOW_ORDER := by decide

/-- The flow order lists distinct `(class, subclass)` pairs. -/
theorem flow_nodup : SUBCLASS_FLOW_ORDER.Nodup := by decide

/-- The attribute names of the schema are distinct. -/
theorem schema_names_nodup :
    (REQUIRED_ATTRIBUTES.map (fun a => a.name)).Nodup := by decide

/-- The missing specs inherit the schema's `order` monotonicity. -/
theorem missingSpecs_orders_pairwise (d : CollectedData) :
    (missingSpecs d).Pairwise (fun a b => a.order ≤ b.order) :=
  List.Pairwise.sublist (List.filter_sublist REQUIRED_ATTRIBUTES)
    schema_orders_pairwise

/-- The missing specs inherit the schema's flow monotonicity. -/
theorem missingSpecs_flow_pairwise (d : CollectedData) :
    (missingSpecs d).Pairwise
      (fun a b => flowPos (attrKey a) ≤ flowPos (attrKey b)) :=
  List.Pairwise.sublist (List.filter_sublist REQUIRED_ATTRIBUTES)
    schema_flow_pairwise

/-- Every missing spec is a schema entry. -/
theorem missingSpecs_subset (d : CollectedData) :
    ∀ a ∈ missingSpecs d, a ∈ REQUIRED_ATTRIBUTES := by
  intro a ha
  exact List.Sublist.subset (List.filter_sublist REQUIRED_ATTRIBUTES) ha

/-- `get_missing_attributes` is the names of the missing specs in schema
order (the order-sort is the identity on an already-sorted list). -/
theorem get_missing_attributes_eq (d : CollectedData) :
    get_missing_attributes d = (missingSpecs d).map (fun a => a.name) := by
  show ((sortByOrder ((REQUIRED_ATTRIBUTES.filter
      (fun a => !a.optional && isMissingIn d a.name)).map
        (fun a => (a.name, a.order)))).map (fun x => x.1)) = _
  have hsorted : ((REQUIRED_ATTRIBUTES.filter
      (fun a => !a.optional && isMissingIn d a.name)).map
        (fun a => (a.name, a.order))).Pairwise (fun x y => x.2 ≤ y.2) := by
    refine List.Pairwise.map _ (fun a b h => h) ?_
    exact missingSpecs_orders_pairwise d
  rw [sortByOrder_eq_self hsorted, List.map_map]
  rfl

/-- `lookupGroup` after `upsertGroup`: the touched key gains the item at
the end, other keys are unchanged. -/
theorem lookupGroup_upsert :
    ∀ (gs : List ((String × String) × List (String × Nat)))
      (k k' : String × String) (it : String × Nat),
    lookupGroup (upsertGroup gs k it) k' =
      if k' = k then some ((lookupGroup gs k).getD [] ++ [it])
      else lookupGroup gs k' := by
  intro gs
  induction gs with
  | nil =>
    intro k k' it
    by_cases h : k' = k
    · subst h; simp [upsertGroup, lookupGroup]
    · simp [upsertGroup, lookupGroup, h, Ne.symm h]
  | cons g rest ih =>
    intro k k' it
    obtain ⟨gk, items⟩ := g
    by_cases h1 : gk = k
    · subst h1
      by_cases h2 : k' = gk
      · subst h2
        simp [upsertGroup, lookupGroup]
      · simp [upsertGroup, lookupGroup, h2, Ne.symm h2]
    · by_cases h2 : gk = k'
      · subst h2
        simp [upsertGroup, lookupGroup, h1, Ne.symm h1, ih]
      · by_cases h3 : k' = k
        · subst h3
          simp [upsertGroup, lookupGroup, h1, h2, ih]
        · simp [upsertGroup, lookupGroup, h1, h2, h3, ih]

/-- `lookupGroup` commutes with mapping over the stored values. -/
theorem lookupGroup_map {β γ : Type} (f : β → γ) :
    ∀ (gs : List ((String × String) × β)) (k : String × String),
      lookupGroup (gs.map (fun g => (g.1, f g.2))) k =
        (lookupGroup gs k).map f := by
  intro gs
  induction gs with
  | nil => intro k; rfl
  | cons g rest ih =>
    intro k
    obtain ⟨gk, v⟩ := g
    by_cases h : gk = k
    · simp [lookupGroup, h]
    · simp [lookupGroup, h, ih]

/-- Looking up a key after folding `upsertGroup` over a list: the key's
group is its matching items, appended to whatever the accumulator held. -/
theorem lookupGroup_foldl_upsert (key : AttrSpec → String × String)
    (item : AttrSpec → String × Nat) :
    ∀ (m : List AttrSpec)
      (gs : List ((String × String) × List (String × Nat)))
      (k : String × String),
    lookupGroup (m.foldl (fun gs a => upsertGroup gs (key a) (item a)) gs) k =
      match lookupGroup gs k with
      | some its => some (its ++ (m.filter (fun a => key a = k)).map item)
      | none =>
        if (m.filter (fun a => key a = k)).map item = [] then none
        else some ((m.filter (fun a => key a = k)).map item) := by
  intro m
  induction m with
  | nil =>
    intro gs k
    cases hg : lookupGroup gs k with
    | none => simp [hg]
    | some its => simp [hg]
  | cons a m ih =>
    intro gs k
    rw [List.foldl_cons, ih, lookupGroup_upsert]
    by_cases hk : k = key a
    · have hgka := hk
      cases hg : lookupGroup gs k with
      | some its =>
        have hg' : lookupGroup gs (key a) = some its := by rw [← hk]; exact hg
        rw [if_pos hk, hg']
        simp [List.filter_cons, hk.symm]
      | none =>
        have hg' : lookupGroup gs (key a) = none := by rw [← hk]; exact hg
        rw [if_pos hk, hg']
        simp [List.filter_cons, hk.symm]
    · rw [if_neg hk]
      have hk' : ¬(key a = k) := fun he => hk he.symm
      cases hg : lookupGroup gs k with
      | some its => simp [List.filter_cons, hk']
      | none => simp [List.filter_cons, hk']

/-- A guarded fold is a fold over the filtered list. -/
theorem foldl_two_if_filter {α β : Type} (p q : α → Bool) (f : β → α → β) :
    ∀ (l : List α) (init : β),
      l.foldl (fun b a => if p a then b else if q a then f b a else b) init =
        (l.filter (fun a => !p a && q a)).foldl f init := by
  intro l
  induction l with
  | nil => intro init; rfl
  | cons a t ih =>
    intro init
    rw [List.foldl_cons, List.filter_cons]
    cases hp : p a with
    | true => simp [ih]
    | false =>
      cases hq : q a with
      | true => simp [ih]
      | false => simp [ih]

/-- `get_missing_by_subclass` is: for each flow pair in order, the
missing specs of that subclass (in schema order), skipping empty
groups. -/
theorem get_missing_by_subclass_eq (d : CollectedData) :
    get_missing_by_subclass d =
      SUBCLASS_FLOW_ORDER.filterMap (fun cs =>
        if ((missingSpecs d).filter (fun a => attrKey a = cs)) = [] then none
        else some { cls := cs.1, subclass := cs.2,
                    attributes := ((missingSpecs d).filter
                      (fun a => attrKey a = cs)).map (fun a => a.name) }) := by
  unfold get_missing_by_subclass
  rw [foldl_two_if_filter (fun a => a.optional)
    (fun a => isMissingIn d a.name)
    (fun gs a => upsertGroup gs (a.cls, a.subclass) (a.name, a.order))
    REQUIRED_ATTRIBUTES []]
  refine List.filterMap_congr (fun cs _ => ?_)
  rw [lookupGroup_map (fun its => (sortByOrder its).map (fun x => x.1))]
  rw [lookupGroup_foldl_upsert (fun a => (a.cls, a.subclass))
    (fun a => (a.name, a.order)) _ [] cs]
  have hkey : (fun (a : AttrSpec) => decide ((a.cls, a.subclass) = cs)) =
      (fun a => decide (attrKey a = cs)) := rfl
  have hfold : (REQUIRED_ATTRIBUTES.filter
      (fun a => !a.optional && isMissingIn d a.name)) = missingSpecs d := rfl
  rw [hkey, hfold]
  have hsorted : (((missingSpecs d).filter
      (fun a => attrKey a = cs)).map
        (fun a => (a.name, a.order))).Pairwise (fun x y => x.2 ≤ y.2) := by
    refine List.Pairwise.map _ (fun a b h => h) ?_
    exact List.Pairwise.sublist (List.filter_sublist _)
      (missingSpecs_orders_pairwise d)
  by_cases hg : (missingSpecs d).filter (fun a => attrKey a = cs) = []
  · rw [hg]
    simp [lookupGroup]
  · have hM : ((missingSpecs d).filter (fun a => attrKey a = cs)).map
        (fun a => (a.name, a.order)) ≠ [] := by
      simpa using hg
    rw [if_neg hM]
    simp [lookupGroup, hg, sortByOrder_eq_self hsorted, List.map_map]

/-- A pair in the prefix sits strictly before the prefix's length. -/
theorem posIn_lt_of_mem (c : String × String) :
    ∀ (l₁ l₂ : List (String × String)), c ∈ l₁ →
      posIn (l₁ ++ l₂) c < l₁.length := by
  intro l₁
  induction l₁ with
  | nil => intro l₂ h; cases h
  | cons x t ih =>
    intro l₂ h
    show (if x = c then 0 else posIn (t ++ l₂) c + 1) < t.length + 1
    by_cases hx : x = c
    · rw [if_pos hx]; omega
    · rw [if_neg hx]
      rcases List.mem_cons.1 h with rfl | ht
      · exact absurd rfl hx
      · have := ih l₂ ht
        omega

/-- Position of a pair beyond a prefix not containing it. -/
theorem posIn_append_not_mem (c : String × String) :
    ∀ (l₁ l₂ : List (String × String)), c ∉ l₁ →
      posIn (l₁ ++ l₂) c = l₁.length + posIn l₂ c := by
  intro l₁
  induction l₁ with
  | nil => intro l₂ _; simp
  | cons x t ih =>
    intro l₂ h
    have hx : ¬(x = c) := fun he => h (he ▸ List.mem_cons_self x t)
    show (if x = c then 0 else posIn (t ++ l₂) c + 1) = t.length + 1 + posIn l₂ c
    rw [if_neg hx, ih l₂ (fun ht => h (List.mem_cons_of_mem x ht))]
    omega

/-- The current focus area is the subclass group of the FIRST missing
spec, and that spec's name heads the group. -/
theorem get_current_focus_area_head (d : CollectedData) (a0 : AttrSpec)
    (m' : List AttrSpec) (hm : missingSpecs d = a0 :: m') :
    get_current_focus_area d = some
      { cls := a0.cls, subclass := a0.subclass,
        attributes := ((missingSpecs d).filter
          (fun a => attrKey a = attrKey a0)).map (fun a => a.name) } ∧
    (((missingSpecs d).filter (fun a => attrKey a = attrKey a0)).map
      (fun a => a.name)).head? = some a0.name := by
  have ha0mem : a0 ∈ missingSpecs d := by
    rw [hm]; exact List.mem_cons_self a0 m'
  have ha0schema : a0 ∈ REQUIRED_ATTRIBUTES := missingSpecs_subset d a0 ha0mem
  have hkflow : attrKey a0 ∈ SUBCLASS_FLOW_ORDER := schema_mem_flow a0 ha0schema
  obtain ⟨F₁, F₂, hsplit⟩ := List.append_of_mem hkflow
  have hnodup := flow_nodup
  rw [hsplit, List.nodup_append] at hnodup
  have hnotF₁ : attrKey a0 ∉ F₁ := fun hmem =>
    hnodup.2.2 hmem (List.mem_cons_self _ _)
  have hmin : ∀ x ∈ missingSpecs d,
      flowPos (attrKey a0) ≤ flowPos (attrKey x) := by
    intro x hx
    rw [hm] at hx
    rcases List.mem_cons.1 hx with rfl | hx'
    · exact Nat.le_refl _
    · have hp := missingSpecs_flow_pairwise d
      rw [hm, List.pairwise_cons] at hp
      exact hp.1 x hx'
  have hpos0 : flowPos (attrKey a0) = F₁.length := by
    show posIn SUBCLASS_FLOW_ORDER (attrKey a0) = F₁.length
    rw [hsplit, posIn_append_not_mem _ F₁ _ hnotF₁]
    show F₁.length + (if attrKey a0 = attrKey a0 then 0 else
      posIn F₂ (attrKey a0) + 1) = F₁.length
    rw [if_pos rfl]
    omega
  have hempty : ∀ c ∈ F₁,
      (missingSpecs d).filter (fun a => attrKey a = c) = [] := by
    intro c hc
    rw [List.filter_eq_nil_iff]
    intro x hx hxc
    have hxc' : attrKey x = c := of_decide_eq_true hxc
    have h1 : flowPos (attrKey a0) ≤ flowPos (attrKey x) := hmin x hx
    have h2 : flowPos (attrKey x) < F₁.length := by
      rw [hxc']
      show posIn SUBCLASS_FLOW_ORDER c < F₁.length
      rw [hsplit]
      exact posIn_lt_of_mem c F₁ _ hc
    omega
  have hgrp : (missingSpecs d).filter (fun a => attrKey a = attrKey a0) ≠ [] := by
    intro h0
    have ha0f : a0 ∈ (missingSpecs d).filter
        (fun a => attrKey a = attrKey a0) := by
      rw [List.mem_filter]
      exact ⟨ha0mem, by simp⟩
    rw [h0] at ha0f
    cases ha0f
  constructor
  · unfold get_current_focus_area
    rw [get_missing_by_subclass_eq, hsplit, List.filterMap_append]
    have hF₁ : F₁.filterMap (fun cs =>
        if (missingSpecs d).filter (fun a => attrKey a = cs) = [] then none
        else (some { cls := cs.1, subclass := cs.2,
                     attributes := ((missingSpecs d).filter
                       (fun a => attrKey a = cs)).map (fun a => a.name) } :
               Option FocusArea)) = [] := by
      rw [List.filterMap_eq_nil_iff]
      intro c hc
      rw [hempty c hc]
      simp
    rw [hF₁, List.filterMap_cons, if_neg hgrp]
    rfl
  · rw [hm, List.filter_cons, if_pos (by simp)]
    rfl

/-- The grouped missing list is empty exactly when nothing is missing. -/
theorem missing_by_subclass_nil_iff (d : CollectedData) :
    get_missing_by_subclass d = [] ↔ missingSpecs d = [] := by
  constructor
  · intro h
    cases hm : missingSpecs d with
    | nil => rfl
    | cons a0 m' =>
      have hf := (get_current_focus_area_head d a0 m' hm).1
      unfold get_current_focus_area at hf
      rw [h] at hf
      cases hf
  · intro h
    rw [get_missing_by_subclass_eq, List.filterMap_eq_nil_iff]
    intro cs _
    rw [h]
    simp

/-- On every non-completing turn, the stored `current_focus` is the focus
area recomputed from the turn's final collected data. -/
theorem process_input_focus_tracks (o : TurnOracle) (u : String) (s : OMState)
    (h : (process_input o u s).outcome ≠ .completed) :
    (process_input o u s).state.current_focus =
      get_current_focus_area ((process_input o u s).state.collected_data) := by
  by_cases hm : get_missing_attributes (mergeExtracted s.collected_data o.extracted) = []
  · rw [process_input_completed o u s hm] at h
    simp at h
  · cases hgate : (!capturedThisTurn o.extracted && decide (pyWordCount u < 15) &&
        (decide (s.clarification_count < 2) &&
          decide ((updateAttempts (capturedThisTurn o.extracted)
              (Option.map (fun fa => fa.subclass)
                (get_current_focus_area (mergeExtracted s.collected_data o.extracted)))
              s.last_subclass s.subclass_attempts).1 < 3))) with
    | true =>
      rw [process_input_clarification o u s hm hgate]
    | false =>
      rw [process_input_asked o u s hm hgate]
      rcases skipStep_spec
          ((updateAttempts (capturedThisTurn o.extracted)
            (Option.map (fun fa => fa.subclass)
              (get_current_focus_area (mergeExtracted s.collected_data o.extracted)))
            s.last_subclass s.subclass_attempts).1)
          (mergeExtracted s.collected_data o.extracted)
          (get_current_focus_area (mergeExtracted s.collected_data o.extracted))
          (get_missing_attributes (mergeExtracted s.collected_data o.extracted))
        with ⟨_, _, hsk⟩ | ⟨_, hsk⟩
      · show (skipStep _ _ _ _).2.1 = get_current_focus_area (skipStep _ _ _ _).1
        rw [hsk]
      · show (skipStep _ _ _ _).2.1 = get_current_focus_area (skipStep _ _ _ _).1
        rw [hsk]

/--
C9: after a turn that does not complete the interview, the interview's
focus is the first unanswered mandatory attribute in canonical schema
order: the focus area returned by `get_current_focus_area` exists, its
first attribute is exactly the head of `get_missing_attributes` (the
canonical order is total, so the choice is deterministic), every name
involved is a real schema key, and every non-completing `process_input`
turn stores exactly this focus for its final collected data.
-/
theorem next_focus_is_first_missing (d : CollectedData)
    (h : get_missing_attributes d ≠ []) :
    (∃ fa, get_current_focus_area d = some fa ∧
      fa.attributes.head? = (get_missing_attributes d).head? ∧
      fa.attributes ≠ [] ∧
      (∀ x ∈ fa.attributes, x ∈ REQUIRED_ATTRIBUTES.map (fun a => a.name))) ∧
    (∀ x ∈ get_missing_attributes d, x ∈ REQUIRED_ATTRIBUTES.map (fun a => a.name)) ∧
    (∀ (o : TurnOracle) (u : String) (s : OMState),
      (process_input o u s).outcome ≠ .completed →
      (process_input o u s).state.current_focus =
        get_current_focus_area ((process_input o u s).state.collected_data)) := by
  have hmm : missingSpecs d ≠ [] := by
    intro h0
    rw [get_missing_attributes_eq, h0] at h
    exact h rfl
  refine ⟨?_, ?_, process_input_focus_tracks⟩
  · cases hm : missingSpecs d with
    | nil => exact absurd hm hmm
    | cons a0 m' =>
      obtain ⟨hfa, hhead⟩ := get_current_focus_area_head d a0 m' hm
      refine ⟨_, hfa, ?_, ?_, ?_⟩
      · rw [hhead, get_missing_attributes_eq, hm]
        rfl
      · intro h0
        have h0' : ((missingSpecs d).filter
            (fun a => attrKey a = attrKey a0)).map (fun a => a.name) = [] := h0
        rw [h0'] at hhead
        cases hhead
      · intro x hx
        rcases List.mem_map.1 hx with ⟨a, ha, rfl⟩
        have ha' : a ∈ missingSpecs d := (List.mem_filter.1 ha).1
        exact List.mem_map_of_mem _ (missingSpecs_subset d a ha')
  · intro x hx
    rw [get_missing_attributes_eq] at hx
    rcases List.mem_map.1 hx with ⟨a, ha, rfl⟩
    exact List.mem_map_of_mem _ (missingSpecs_subset d a ha)

/-- Witness for C9: `source_channel` and `pricing_logic` captured by one
utterance, so the next focus is `order_completeness_score` — the first
unanswered mandatory attribute, not any later or non-existent one. -/
theorem next_focus_is_first_missing_witness :
    (get_missing_attributes dMultiCapture).head? =
      some "order_completeness_score" ∧
    ∃ fa, get_current_focus_area dMultiCapture = some fa ∧
      fa.attributes.head? = some "order_completeness_score" := by
  obtain ⟨⟨fa, hfa, hhead, _, _⟩, _, _⟩ :=
    next_focus_is_first_missing dMultiCapture (by decide)
  refine ⟨by decide, fa, hfa, ?_⟩
  rw [hhead]
  decide

/-!
### C2: termination

The claim quantifies over *every* oracle.  An oracle that keeps returning
a non-null value for an already-set (or optional) key makes every turn a
"capturing" one: the stuck counters reset each turn, nothing is ever
force-skipped, and the interview never terminates.  The spec's bound does
hold for the failure mode it describes (an oracle that always errors or
returns nothing): with every extraction empty the interview completes
within `totalMandatoryApplicable × 4` turns.
-/

/-- Re-extracting `intake_timestamp` is a fixed point of the merge. -/
theorem merge_capOracle_dIntake :
    mergeExtracted dIntake capOracle.extracted = dIntake := by
  funext k
  show (if k = "intake_timestamp" then some "Manual logging" else dIntake k) =
    dIntake k
  by_cases hk : k = "intake_timestamp"
  · rw [if_pos hk, hk]
    rfl
  · rw [if_neg hk]

/-- One `capOracle` turn keeps the session active with data `dIntake`. -/
theorem capOracle_step (u : String) (s : OMState)
    (ha : s.active = true)
    (hmerge : mergeExtracted s.collected_data capOracle.extracted = dIntake) :
    (process_input capOracle u s).state.active = true ∧
    (process_input capOracle u s).state.collected_data = dIntake := by
  have hm : get_missing_attributes
      (mergeExtracted s.collected_data capOracle.extracted) ≠ [] := by
    rw [hmerge]
    decide
  have hcap : capturedThisTurn capOracle.extracted = true := rfl
  have hgate : (!capturedThisTurn capOracle.extracted &&
      decide (pyWordCount u < 15) &&
      (decide (s.clarification_count < 2) &&
        decide ((updateAttempts (capturedThisTurn capOracle.extracted)
            (Option.map (fun fa => fa.subclass)
              (get_current_focus_area
                (mergeExtracted s.collected_data capOracle.extracted)))
            s.last_subclass s.subclass_attempts).1 < 3))) = false := by
    rw [hcap]
    simp
  rw [process_input_asked capOracle u s hm hgate]
  have hfoc : get_current_focus_area dIntake = some
      { cls := "Order Demand & Validation", subclass := "Order Intake",
        attributes := ["source_channel", "order_completeness_score"] } := by
    decide
  have hupd : (updateAttempts (capturedThisTurn capOracle.extracted)
      (Option.map (fun fa => fa.subclass)
        (get_current_focus_area (mergeExtracted s.collected_data capOracle.extracted)))
      s.last_subclass s.subclass_attempts).1 = 0 := by
    rw [hcap, hmerge, hfoc]
    simp [updateAttempts]
  rcases skipStep_spec
      ((updateAttempts (capturedThisTurn capOracle.extracted)
        (Option.map (fun fa => fa.subclass)
          (get_current_focus_area (mergeExtracted s.collected_data capOracle.extracted)))
        s.last_subclass s.subclass_attempts).1)
      (mergeExtracted s.collected_data capOracle.extracted)
      (get_current_focus_area (mergeExtracted s.collected_data capOracle.extracted))
      (get_missing_attributes (mergeExtracted s.collected_data capOracle.extracted))
    with ⟨h3, _, _⟩ | ⟨_, hsk⟩
  · rw [hupd] at h3
    cases h3
  · constructor
    · show s.active = true
      exact ha
    · show (skipStep _ _ _ _).1 = dIntake
      rw [hsk]
      exact hmerge

/-- Any run of `capOracle` turns from a `dIntake`-merged state stays
active. -/
theorem capOracle_run : ∀ (inputs : List (String × TurnOracle)) (s : OMState),
    (∀ i ∈ inputs, i.2 = capOracle) →
    s.active = true →
    mergeExtracted s.collected_data capOracle.extracted = dIntake →
    (runActive inputs s).active = true := by
  intro inputs
  induction inputs with
  | nil => intro s _ ha _; exact ha
  | cons i rest ih =>
    intro s hall ha hmerge
    obtain ⟨u, o⟩ := i
    have ho : o = capOracle := hall (u, o) (List.mem_cons_self _ _)
    subst ho
    have hstep := capOracle_step u s ha hmerge
    have hrun : runActive ((u, capOracle) :: rest) s =
        runActive rest (process_input capOracle u s).state := by
      simp [runActive, ha]
    rw [hrun]
    refine ih _ (fun i hi => hall i (List.mem_cons_of_mem _ hi)) hstep.1 ?_
    rw [hstep.2]
    exact merge_capOracle_dIntake

/--
C2 counterexample: the bound does not hold for every oracle response
sequence.  An oracle that re-extracts a value for the optional attribute
`intake_timestamp` every turn makes every turn "capturing", so the stuck
counters reset each turn, nothing is force-skipped, and after
`totalMandatoryApplicable × 4 = 136` turns the interview is still active.
-/
theorem interview_not_bounded_for_all_oracles :
    totalMandatoryApplicable * 4 ≤
      (List.replicate 136 (("hi", capOracle) : String × TurnOracle)).length ∧
    (runActive (List.replicate 136 (("hi", capOracle) : String × TurnOracle))
      get_initial_state).active = true := by
  constructor
  · rw [List.length_replicate]
    decide
  · refine capOracle_run _ get_initial_state ?_ rfl ?_
    · intro i hi
      rw [List.eq_of_mem_replicate hi]
    · funext k
      show (if k = "intake_timestamp" then some "Manual logging" else none) =
        dIntake k
      rfl

/-- Keys outside the skipped attribute list are untouched. -/
theorem skipFill_not_mem (attrs : List String) : ∀ (d : CollectedData) (k : String),
    k ∉ attrs → skipFill d attrs k = d k := by
  induction attrs with
  | nil => intro d k _; rfl
  | cons a rest ih =>
    intro d k h
    have hka : k ≠ a := fun he => h (he ▸ List.mem_cons_self a rest)
    have hstep : skipFill d (a :: rest) =
        skipFill (if (d a).isNone then setKey d a "[Not discussed]" else d) rest :=
      rfl
    rw [hstep, ih _ k (fun hr => h (List.mem_cons_of_mem a hr))]
    by_cases hn : (d a).isNone
    · rw [if_pos hn]
      simp [setKey, hka]
    · rw [if_neg hn]

/-- Every skipped key is present afterwards. -/
theorem skipFill_mem_isSome (attrs : List String) : ∀ (d : CollectedData) (k : String),
    k ∈ attrs → (skipFill d attrs k).isSome = true := by
  induction attrs with
  | nil => intro d k h; cases h
  | cons a rest ih =>
    intro d k h
    have hstep : skipFill d (a :: rest) =
        skipFill (if (d a).isNone then setKey d a "[Not discussed]" else d) rest :=
      rfl
    rw [hstep]
    by_cases hk : k ∈ rest
    · exact ih _ k hk
    · have hka : k = a := by
        rcases List.mem_cons.1 h with h' | h'
        · exact h'
        · exact absurd h' hk
      subst hka
      have hd' : ((if (d k).isNone then setKey d k "[Not discussed]" else d) k).isSome
          = true := by
        by_cases hn : (d k).isNone
        · rw [if_pos hn]
          simp [setKey]
        · rw [if_neg hn]
          cases hdk : d k with
          | none => rw [hdk] at hn; exact absurd rfl hn
          | some v => rfl
      rcases skipFill_spec rest _ k with hs | ⟨_, hs⟩
      · rw [hs]
        exact hd'
      · rw [hs]
        rfl

/-- Force-skipping one subclass group removes exactly that group from the
missing specs. -/
theorem missingSpecs_skipFill (d : CollectedData) (c : String × String) :
    missingSpecs (skipFill d
      (((missingSpecs d).filter (fun a => attrKey a = c)).map (fun a => a.name))) =
      (missingSpecs d).filter (fun a => !decide (attrKey a = c)) := by
  conv_lhs => rw [missingSpecs]
  conv_rhs => rw [missingSpecs]
  rw [List.filter_filter]
  refine List.filter_congr ?_
  intro x hx
  by_cases hxg : x.name ∈ ((missingSpecs d).filter
      (fun a => attrKey a = c)).map (fun a => a.name)
  · have hsome := skipFill_mem_isSome _ d x.name hxg
    rcases List.mem_map.1 hxg with ⟨y, hy, hyx⟩
    have hy' : y ∈ missingSpecs d := (List.mem_filter.1 hy).1
    have hyc : attrKey y = c := of_decide_eq_true (List.mem_filter.1 hy).2
    have hxy : y = x := List.inj_on_of_nodup_map schema_names_nodup
      (missingSpecs_subset d y hy') hx hyx
    subst hxy
    have hLfalse : isMissingIn (skipFill d
        (((missingSpecs d).filter (fun a => attrKey a = c)).map
          (fun a => a.name))) y.name = false := by
      unfold isMissingIn
      cases hv : skipFill d (((missingSpecs d).filter
          (fun a => attrKey a = c)).map (fun a => a.name)) y.name with
      | none => rw [hv] at hsome; cases hsome
      | some v => rfl
    rw [hLfalse, hyc]
    simp
  · have hkeep := skipFill_not_mem _ d x.name hxg
    have hLH : isMissingIn (skipFill d
        (((missingSpecs d).filter (fun a => attrKey a = c)).map
          (fun a => a.name))) x.name = isMissingIn d x.name := by
      unfold isMissingIn
      rw [hkeep]
    rw [hLH]
    by_cases hxc : attrKey x = c
    · have hnot : (!x.optional && isMissingIn d x.name) = false := by
        cases hb : (!x.optional && isMissingIn d x.name) with
        | false => rfl
        | true =>
          exfalso
          apply hxg
          apply List.mem_map_of_mem
          rw [List.mem_filter]
          refine ⟨?_, by simp [hxc]⟩
          rw [missingSpecs, List.mem_filter]
          exact ⟨hx, hb⟩
      rw [Bool.and_comm (!x.optional) (isMissingIn d x.name)] at hnot
      rw [Bool.and_comm (!x.optional) (isMissingIn d x.name)]
      simp [hxc, hnot]
    · simp [hxc]

/-- The subclass names of the flow order are distinct. -/
theorem flow_snd_nodup : (SUBCLASS_FLOW_ORDER.map Prod.snd).Nodup := by decide

/-- Every schema subclass name is non-empty (`if current_subclass:` is
truthy whenever a focus area exists). -/
theorem schema_subclass_ne_empty : ∀ a ∈ REQUIRED_ATTRIBUTES, a.subclass ≠ "" := by
  decide

/-- Force-skipping the first missing group removes exactly one group,
and the remaining groups are all of other subclasses. -/
theorem skip_removes_first_group (d : CollectedData) (a0 : AttrSpec)
    (m' : List AttrSpec) (hm : missingSpecs d = a0 :: m') :
    (get_missing_by_subclass (skipFill d (((missingSpecs d).filter
        (fun a => attrKey a = attrKey a0)).map (fun a => a.name)))).length + 1 =
      (get_missing_by_subclass d).length ∧
    ∀ fa ∈ get_missing_by_subclass (skipFill d (((missingSpecs d).filter
        (fun a => attrKey a = attrKey a0)).map (fun a => a.name))),
      fa.subclass ≠ a0.subclass := by
  have hmiss' := missingSpecs_skipFill d (attrKey a0)
  have ha0mem : a0 ∈ missingSpecs d := by
    rw [hm]; exact List.mem_cons_self a0 m'
  have ha0schema := missingSpecs_subset d a0 ha0mem
  have hkflow := schema_mem_flow a0 ha0schema
  obtain ⟨F₁, F₂, hsplit⟩ := List.append_of_mem hkflow
  have hnodup := flow_nodup
  rw [hsplit, List.nodup_append] at hnodup
  have hc_notF₁ : attrKey a0 ∉ F₁ := fun h =>
    hnodup.2.2 h (List.mem_cons_self _ _)
  have hc_notF₂ : attrKey a0 ∉ F₂ := fun h =>
    (List.nodup_cons.1 hnodup.2.1).1 h
  have hgroup : ∀ cs : String × String, cs ≠ attrKey a0 →
      (missingSpecs (skipFill d (((missingSpecs d).filter
          (fun a => attrKey a = attrKey a0)).map (fun a => a.name)))).filter
        (fun a => attrKey a = cs) =
        (missingSpecs d).filter (fun a => attrKey a = cs) := by
    intro cs hcs
    rw [hmiss', List.filter_filter]
    refine List.filter_congr ?_
    intro x hx
    by_cases hxcs : attrKey x = cs
    · have hxa0 : ¬(attrKey x = attrKey a0) := fun h => hcs (by rw [← hxcs, h])
      simp [hxcs, hxa0, hcs]
    · simp [hxcs]
  have hgroupc : (missingSpecs (skipFill d (((missingSpecs d).filter
      (fun a => attrKey a = attrKey a0)).map (fun a => a.name)))).filter
        (fun a => attrKey a = attrKey a0) = [] := by
    rw [hmiss', List.filter_filter, List.filter_eq_nil_iff]
    intro x _ hb
    simp at hb
  have hgrpne : (missingSpecs d).filter (fun a => attrKey a = attrKey a0) ≠ [] := by
    intro h0
    have ha0f : a0 ∈ (missingSpecs d).filter (fun a => attrKey a = attrKey a0) := by
      rw [List.mem_filter]
      exact ⟨ha0mem, by simp⟩
    rw [h0] at ha0f
    cases ha0f
  have hfcongr : ∀ (F : List (String × String)), attrKey a0 ∉ F →
      F.filterMap (fun cs =>
        if (missingSpecs (skipFill d (((missingSpecs d).filter
            (fun a => attrKey a = attrKey a0)).map (fun a => a.name)))).filter
              (fun a => attrKey a = cs) = [] then none
        else (some { cls := cs.1, subclass := cs.2,
                     attributes := ((missingSpecs (skipFill d
                       (((missingSpecs d).filter
                         (fun a => attrKey a = attrKey a0)).map
                           (fun a => a.name)))).filter
                       (fun a => attrKey a = cs)).map (fun a => a.name) } :
               Option FocusArea)) =
      F.filterMap (fun cs =>
        if (missingSpecs d).filter (fun a => attrKey a = cs) = [] then none
        else (some { cls := cs.1, subclass := cs.2,
                     attributes := ((missingSpecs d).filter
                       (fun a => attrKey a = cs)).map (fun a => a.name) } :
               Option FocusArea)) := by
    intro F hF
    refine List.filterMap_congr (fun cs hcs => ?_)
    have hne : cs ≠ attrKey a0 := fun he => hF (he ▸ hcs)
    rw [hgroup cs hne]
  constructor
  · rw [get_missing_by_subclass_eq, get_missing_by_subclass_eq, hsplit,
      List.filterMap_append, List.filterMap_append, List.filterMap_cons,
      List.filterMap_cons, hfcongr F₁ hc_notF₁, hfcongr F₂ hc_notF₂,
      if_pos hgroupc, if_neg hgrpne]
    simp only [List.length_append, List.length_cons]
    omega
  · intro fa hfa
    rw [get_missing_by_subclass_eq] at hfa
    rcases List.mem_filterMap.1 hfa with ⟨cs, hcsF, hfcs⟩
    by_cases hP : (missingSpecs (skipFill d (((missingSpecs d).filter
        (fun a => attrKey a = attrKey a0)).map (fun a => a.name)))).filter
          (fun a => attrKey a = cs) = []
    · rw [if_pos hP] at hfcs
      cases hfcs
    · rw [if_neg hP] at hfcs
      have hfa2 := Option.some.inj hfcs
      have hcsne : cs ≠ attrKey a0 := by
        intro he
        subst he
        exact hP hgroupc
      have hsub : fa.subclass = cs.2 := by rw [← hfa2]
      rw [hsub]
      intro hss
      apply hcsne
      have ha0flow : attrKey a0 ∈ SUBCLASS_FLOW_ORDER := hkflow
      exact List.inj_on_of_nodup_map flow_snd_nodup hcsF ha0flow hss

/-- An inactive session stays untouched by the orchestrator. -/
theorem runActive_inactive (inputs : List (String × TurnOracle)) (s : OMState)
    (h : s.active = false) : runActive inputs s = s := by
  cases inputs with
  | nil => rfl
  | cons i rest =>
    obtain ⟨u, o⟩ := i
    simp [runActive, h]

/-- Unfolding one active turn of `runActive`. -/
theorem runActive_cons_active (u : String) (o : TurnOracle)
    (rest : List (String × TurnOracle)) (s : OMState) (h : s.active = true) :
    runActive ((u, o) :: rest) s = runActive rest (process_input o u s).state := by
  simp [runActive, h]

/-- The termination measure is always positive. -/
theorem turnMeasure_pos (s : OMState) : 1 ≤ turnMeasure s := by
  unfold turnMeasure
  cases hml : matchesLast s with
  | false =>
    rw [if_neg Bool.false_ne_true]
    omega
  | true =>
    have hk : get_missing_by_subclass s.collected_data ≠ [] := by
      intro h0
      unfold matchesLast focusSubclass get_current_focus_area at hml
      rw [h0] at hml
      simp at hml
    have hk1 : 1 ≤ (get_missing_by_subclass s.collected_data).length :=
      List.length_pos.2 hk
    have hmin : min s.subclass_attempts 2 ≤ 2 := min_le_right _ _
    rw [if_pos rfl]
    omega

/-- One `process_input` turn with an empty extraction either deactivates
the session or decreases the termination measure while preserving the
attempt invariant. -/
theorem emptyStep_measure (o : TurnOracle) (u : String) (s : OMState)
    (ho : o.extracted = []) (hinv : attemptsInv s) :
    (process_input o u s).state.active = false ∨
    (attemptsInv (process_input o u s).state ∧
     turnMeasure (process_input o u s).state < turnMeasure s) := by
  have hcap : capturedThisTurn o.extracted = false := by rw [ho]; rfl
  have hmd : mergeExtracted s.collected_data o.extracted = s.collected_data := by
    rw [ho]; rfl
  by_cases hm : get_missing_attributes (mergeExtracted s.collected_data o.extracted) = []
  · left
    rw [process_input_completed o u s hm]
  · have hmm : missingSpecs s.collected_data ≠ [] := by
      intro h0
      apply hm
      rw [hmd, get_missing_attributes_eq, h0]
      rfl
    cases hms : missingSpecs s.collected_data with
    | nil => exact absurd hms hmm
    | cons a0 m' =>
      right
      have hfocS := (get_current_focus_area_head s.collected_data a0 m' hms).1
      have hfocM : get_current_focus_area (mergeExtracted s.collected_data o.extracted) =
          some { cls := a0.cls, subclass := a0.subclass,
                 attributes := ((missingSpecs s.collected_data).filter
                   (fun a => attrKey a = attrKey a0)).map (fun a => a.name) } := by
        rw [hmd]
        exact hfocS
      have ha0ne : a0.subclass ≠ "" :=
        schema_subclass_ne_empty a0
          (missingSpecs_subset s.collected_data a0
            (by rw [hms]; exact List.mem_cons_self a0 m'))
      have hk1 : 1 ≤ (get_missing_by_subclass s.collected_data).length := by
        refine List.length_pos.2 (fun h0 => hmm ?_)
        exact (missing_by_subclass_nil_iff s.collected_data).1 h0
      have key : ∃ A : Nat,
          (updateAttempts (capturedThisTurn o.extracted)
            (Option.map (fun fa => fa.subclass)
              (get_current_focus_area (mergeExtracted s.collected_data o.extracted)))
            s.last_subclass s.subclass_attempts).1 = A ∧
          (updateAttempts (capturedThisTurn o.extracted)
            (Option.map (fun fa => fa.subclass)
              (get_current_focus_area (mergeExtracted s.collected_data o.extracted)))
            s.last_subclass s.subclass_attempts).2 = some a0.subclass ∧
          1 ≤ A ∧ A ≤ 3 ∧
          turnMeasure s =
            3 * (get_missing_by_subclass s.collected_data).length + 1 - (A - 1) := by
        by_cases hlast : s.last_subclass = some a0.subclass
        · have hml : matchesLast s = true := by
            unfold matchesLast focusSubclass
            rw [hfocS, hlast]
            simp
          have hatt2 : s.subclass_attempts ≤ 2 := hinv hml
          refine ⟨s.subclass_attempts + 1, ?_, ?_, ?_, ?_, ?_⟩
          · rw [hcap, hfocM, hlast]
            simp [updateAttempts, ha0ne]
          · rw [hcap, hfocM, hlast]
            simp [updateAttempts, ha0ne]
          · omega
          · omega
          · unfold turnMeasure
            rw [if_pos hml]
            omega
        · have hml : matchesLast s = false := by
            unfold matchesLast focusSubclass
            rw [hfocS]
            cases hls : s.last_subclass with
            | none => rfl
            | some c =>
              have hne : ¬(a0.subclass = c) := fun h => hlast (by rw [hls, h])
              simp [hne]
          have hml' : ¬(matchesLast s = true) := fun h =>
            Bool.false_ne_true (hml ▸ h)
          refine ⟨1, ?_, ?_, ?_, ?_, ?_⟩
          · rw [hcap, hfocM]
            simp [updateAttempts, ha0ne, hlast]
          · rw [hcap, hfocM]
            simp [updateAttempts, ha0ne, hlast]
          · omega
          · omega
          · unfold turnMeasure
            rw [if_neg hml']
      obtain ⟨A, hal1, hal2, hA1, hA3, hmu⟩ := key
      have hsomeM : (get_current_focus_area
          (mergeExtracted s.collected_data o.extracted)).isSome = true := by
        rw [hfocM]
        rfl
      cases hgate : (!capturedThisTurn o.extracted && decide (pyWordCount u < 15) &&
          (decide (s.clarification_count < 2) &&
            decide ((updateAttempts (capturedThisTurn o.extracted)
                (Option.map (fun fa => fa.subclass)
                  (get_current_focus_area (mergeExtracted s.collected_data o.extracted)))
                s.last_subclass s.subclass_attempts).1 < 3))) with
      | true =>
        have hgt := (gateBool_iff _ _ _ _).1 hgate
        have hAlt : A < 3 := by rw [← hal1]; exact hgt.2.2.2
        have h1 : (process_input o u s).state.collected_data = s.collected_data := by
          rw [process_input_clarification o u s hm hgate]
          exact hmd
        have h2 : (process_input o u s).state.last_subclass = some a0.subclass := by
          rw [process_input_clarification o u s hm hgate]
          exact hal2
        have h3 : (process_input o u s).state.subclass_attempts = A := by
          rw [process_input_clarification o u s hm hgate]
          exact hal1
        have hmlP : matchesLast (process_input o u s).state = true := by
          unfold matchesLast focusSubclass
          rw [h1, h2, hfocS]
          simp
        constructor
        · intro _
          rw [h3]
          omega
        · rw [hmu]
          unfold turnMeasure
          rw [h1, h3, if_pos hmlP]
          omega
      | false =>
        rcases skipStep_spec
            ((updateAttempts (capturedThisTurn o.extracted)
              (Option.map (fun fa => fa.subclass)
                (get_current_focus_area (mergeExtracted s.collected_data o.extracted)))
              s.last_subclass s.subclass_attempts).1)
            (mergeExtracted s.collected_data o.extracted)
            (get_current_focus_area (mergeExtracted s.collected_data o.extracted))
            (get_missing_attributes (mergeExtracted s.collected_data o.extracted))
          with ⟨h3a, _, hsk⟩ | ⟨hns, hsk⟩
        · -- the stuck topic is force-skipped
          rw [hal1] at h3a
          have h1s : (process_input o u s).state.collected_data =
              skipFill s.collected_data (((missingSpecs s.collected_data).filter
                (fun a => attrKey a = attrKey a0)).map (fun a => a.name)) := by
            rw [process_input_asked o u s hm hgate]
            show (skipStep _ _ _ _).1 = _
            rw [hsk, hmd, hfocS]
          have h3 : (process_input o u s).state.subclass_attempts = 0 := by
            rw [process_input_asked o u s hm hgate]
            show (skipStep _ _ _ _).2.2.1 = 0
            rw [hsk]
          have hrem := (skip_removes_first_group s.collected_data a0 m' hms).1
          constructor
          · intro _
            rw [h3]
            omega
          · rw [hmu]
            unfold turnMeasure
            rw [h1s, h3]
            have hzero : (if matchesLast (process_input o u s).state = true
                then min 0 2 else 0) = 0 := by
              cases matchesLast (process_input o u s).state <;> simp
            rw [hzero]
            omega
        · -- no skip: the attempt counter advanced and everything else is kept
          have hns' : ¬(3 ≤ A) := fun h3A =>
            hns ⟨by rw [hal1]; exact h3A, hsomeM⟩
          have h1 : (process_input o u s).state.collected_data = s.collected_data := by
            rw [process_input_asked o u s hm hgate]
            show (skipStep _ _ _ _).1 = s.collected_data
            rw [hsk]
            exact hmd
          have h2 : (process_input o u s).state.last_subclass = some a0.subclass := by
            rw [process_input_asked o u s hm hgate]
            exact hal2
          have h3 : (process_input o u s).state.subclass_attempts = A := by
            rw [process_input_asked o u s hm hgate]
            show (skipStep _ _ _ _).2.2.1 = A
            rw [hsk]
            exact hal1
          have hmlP : matchesLast (process_input o u s).state = true := by
            unfold matchesLast focusSubclass
            rw [h1, h2, hfocS]
            simp
          constructor
          · intro _
            rw [h3]
            omega
          · rw [hmu]
            unfold turnMeasure
            rw [h1, h3, if_pos hmlP]
            omega

/-- With all-empty extractions, a session whose measure fits in the
remaining turn budget ends inactive. -/
theorem emptyRun (inputs : List (String × TurnOracle)) :
    ∀ s : OMState, (∀ i ∈ inputs, i.2.extracted = []) →
    attemptsInv s → turnMeasure s ≤ inputs.length →
    (runActive inputs s).active = false := by
  induction inputs with
  | nil =>
    intro s _ _ hle
    rw [List.length_nil] at hle
    exact absurd (turnMeasure_pos s) (by omega)
  | cons i rest ih =>
    intro s hall hinv hle
    obtain ⟨u, o⟩ := i
    cases ha : s.active with
    | false =>
      rw [runActive_inactive _ s ha]
      exact ha
    | true =>
      rw [runActive_cons_active u o rest s ha]
      have ho : o.extracted = [] := hall (u, o) (List.mem_cons_self _ _)
      rcases emptyStep_measure o u s ho hinv with hend | ⟨hinv2, hdec⟩
      · rw [runActive_inactive rest _ hend]
        exact hend
      · refine ih _ (fun i hi => hall i (List.mem_cons_of_mem _ hi)) hinv2 ?_
        simp only [List.length_cons] at hle
        omega

/--
C2 (amended): the bound `totalMandatoryApplicable × 4` does hold for the
failure mode the spec describes — an extractor that errors or returns
nothing every turn.  If every turn's extraction is empty, then after at
most `totalMandatoryApplicable × 4 = 136` turns (in fact far fewer) the
orchestrated session has terminated: `runActive` ends with
`active = false`.  The bound does NOT hold for arbitrary oracles (see the
counterexample theorem for C2).
-/
theorem interview_terminates_with_empty_extraction
    (inputs : List (String × TurnOracle))
    (hempty : ∀ i ∈ inputs, i.2.extracted = [])
    (hlen : totalMandatoryApplicable * 4 ≤ inputs.length) :
    (runActive inputs get_initial_state).active = false := by
  refine emptyRun inputs get_initial_state hempty ?_ ?_
  · intro _
    decide
  · have h37 : turnMeasure get_initial_state = 37 := by decide
    have h136 : totalMandatoryApplicable * 4 = 136 := by decide
    omega

/-- Witness for C2 (amended), at 136 turns of short utterances with a
failing extractor. -/
theorem interview_terminates_with_empty_extraction_witness :
    (runActive (List.replicate 136 (("hi", emptyOracle) : String × TurnOracle))
      get_initial_state).active = false :=
  interview_terminates_with_empty_extraction _
    (fun i hi => by rw [List.eq_of_mem_replicate hi]; rfl)
    (by rw [List.length_replicate]; decide)

end OrderMgmt
